import Mathlib

/-!
Verification of the LaunchKit claim-based concurrency core (AgentX repository).

The definitions below are a shallow embedding of the TypeScript source:
* `JVal`/`deepMerge` embed the recursive structural merge of
  `src/launchkit/db/launchPackRepository.ts` (`deepMerge`), with JavaScript's
  `undefined` made explicit as `JVal.undef`.
* The typed `LaunchPack` model and the store operations embed the in-memory
  store (`createInMemoryLaunchPackStore`) and, where they differ, the
  PGlite-backed `LaunchPackRepository` (its SQL `UPDATE ... WHERE` predicates
  and `jsonb_set` effects are translated to functions named `repo*`).
* The orchestrator services (`PumpLauncherService.launch`,
  `TelegramPublisherService.publish`, `XPublisherService.publish`) are embedded
  as pure functions; every external network call is an explicit parameter
  (an oracle for remote-call outcomes), and ISO-8601 timestamps are modelled
  as integer epoch milliseconds.
-/

namespace AgentX

/-- JSON-like values. `undef` stands for JavaScript's `undefined` (a key that is
present with value `undefined`, or an absent lookup); `null` is JSON null.
Objects are insertion-ordered key/value lists, as in JavaScript. -/
inductive JVal where
  | undef : JVal
  | null : JVal
  | bool : Bool → JVal
  | num : Int → JVal
  | str : String → JVal
  | arr : List JVal → JVal
  | obj : List (String × JVal) → JVal

/-- First-match lookup of a key in an object's entry list (JavaScript property
lookup; real JS objects have no duplicate keys). -/
def jLookup (kvs : List (String × JVal)) (k : String) : Option JVal :=
  match kvs with
  | [] => none
  | (k2, v) :: rest => if k2 = k then some v else jLookup rest k

/-- JavaScript property assignment `o[k] = v` on an entry list: an existing key
keeps its position and gets the new value; a new key is appended. (JavaScript
objects never hold duplicate keys, so replacing the first occurrence is object
assignment.) -/
def jAssign : List (String × JVal) → String → JVal → List (String × JVal)
  | [], k, v => [(k, v)]
  | (k1, v1) :: rest, k, v =>
    if k1 = k then (k, v) :: rest else (k1, v1) :: jAssign rest k v

/-- The entry list of a value that JavaScript treats as a mergeable object in
`deepMerge`'s base position (`typeof base === 'object' && base !== null`):
objects give their entries; arrays are spread to index-keyed entries
(`{...[a,b]}` is `{"0": a, "1": b}`); everything else is not an object. -/
def entriesOf : JVal → Option (List (String × JVal))
  | .obj kvs => some kvs
  | .arr xs => some (((List.range xs.length).zip xs).map (fun p => (toString p.1, p.2)))
  | _ => none

mutual

/-- Embedding of `deepMerge(base, patch)` from `launchPackRepository.ts`:
`undefined`/`null` patches keep the base; array and scalar patches replace the
base wholesale; an object patch against an object-like base assigns, key by
key in patch order, `deepMerge(base[key], patch[key])`. -/
def deepMerge : JVal → JVal → JVal
  | base, .undef => base
  | base, .null => base
  | _, .bool b => .bool b
  | _, .num n => .num n
  | _, .str s => .str s
  | _, .arr xs => .arr xs
  | base, .obj pkvs =>
    match entriesOf base with
    | some bkvs => .obj (mergeEntries bkvs bkvs pkvs)
    | none => .obj pkvs

/-- The loop body of `deepMerge`'s object case: `merged` starts as a copy of the
base (`acc`), and each patch key is assigned `deepMerge(base[key], patch[key])`
(`bkvs` stays the original base for the `base[key]` lookups). -/
def mergeEntries (bkvs acc : List (String × JVal)) : List (String × JVal) → List (String × JVal)
  | [] => acc
  | (k, pv) :: rest =>
      mergeEntries bkvs (jAssign acc k (deepMerge ((jLookup bkvs k).getD .undef) pv)) rest

end

/-- Property lookup on a JSON value: defined on objects, `none` elsewhere. -/
def JVal.lookupKey : JVal → String → Option JVal
  | .obj kvs, k => jLookup kvs k
  | _, _ => none

/-! ### Typed LaunchPack model

Statuses are the schema's string literals. ISO timestamps are epoch
milliseconds (`Int`); `Option` marks fields the schema leaves optional.
All records are assumed zod-validated (`launchPackSchema`), so the objects
with schema defaults (`launch`, `ops`, `tg`, `x`, pins, schedules) are plain
fields here. -/

/-- `ops.audit_log` entry (`auditEntrySchema`); `atMs` is the `at` timestamp. -/
structure AuditEntry where
  atMs : Int
  message : String
  actor : String
deriving Repr, DecidableEq

/-- `scheduleItemSchema`: a `{when, text}` posting intent. -/
structure ScheduleItem where
  whenAt : Int
  text : String
deriving Repr, DecidableEq

/-- `brandSchema` (ticker already normalized by validation). -/
structure Brand where
  name : String := ""
  ticker : String := ""
  tagline : String := ""
  description : String := ""
deriving Repr, DecidableEq

/-- `launchSchema`: the launch sub-state. -/
structure Launch where
  status : String := "draft"
  mint : Option String := none
  tx_signature : Option String := none
  pump_url : Option String := none
  requested_at : Option Int := none
  completed_at : Option Int := none
  launched_at : Option Int := none
  failed_at : Option Int := none
  error_code : Option String := none
  error_message : Option String := none
deriving Repr, DecidableEq

/-- `tgPinsSchema`: the three pin texts (empty string = missing). -/
structure TgPins where
  welcome : String := ""
  how_to_buy : String := ""
  memekit : String := ""
deriving Repr, DecidableEq

/-- `tgSchema`: Telegram content. -/
structure TgContent where
  pins : TgPins := {}
  schedule : List ScheduleItem := []
deriving Repr, DecidableEq

/-- `xSchema`: X content. -/
structure XContent where
  main_post : String := ""
  thread : List String := []
  reply_bank : List String := []
  schedule : List ScheduleItem := []
deriving Repr, DecidableEq

/-- `opsSchema`: operational sub-state. The checklist is a string-keyed boolean
record, kept as an insertion-ordered entry list. -/
structure Ops where
  checklist : List (String × Bool) := []
  audit_log : List AuditEntry := []
  tg_publish_status : Option String := none
  tg_publish_attempted_at : Option Int := none
  tg_publish_failed_at : Option Int := none
  tg_publish_error_code : Option String := none
  tg_publish_error_message : Option String := none
  tg_published_at : Option Int := none
  tg_message_ids : Option (List String) := none
  tg_schedule_intent : Option (List ScheduleItem) := none
  x_publish_status : Option String := none
  x_publish_attempted_at : Option Int := none
  x_publish_failed_at : Option Int := none
  x_publish_error_code : Option String := none
  x_publish_error_message : Option String := none
  x_published_at : Option Int := none
  x_post_ids : Option (List String) := none
  x_tweet_ids : Option (List String) := none
  x_schedule_intent : Option (List ScheduleItem) := none
deriving Repr, DecidableEq

/-- `launchPackSchema` plus the assigned `id`. -/
structure LaunchPack where
  id : String
  idempotency_key : Option String := none
  version : Option Nat := some 1
  brand : Brand := {}
  tg : TgContent := {}
  x : XContent := {}
  launch : Launch := {}
  ops : Ops := {}
  created_at : Option Int := none
  updated_at : Option Int := none
deriving Repr, DecidableEq

/-- Checklist lookup: JavaScript `ops.checklist?.[k]` truthiness
(absent key reads as `false`). -/
def checklistGet (kvs : List (String × Bool)) (k : String) : Bool :=
  match kvs with
  | [] => false
  | (k2, b) :: rest => if k2 = k then b else checklistGet rest k

/-- Checklist assignment (spread-with-override, as in
`{...claim.ops?.checklist, tg_published: true}`). -/
def checklistSet (kvs : List (String × Bool)) (k : String) (b : Bool) : List (String × Bool) :=
  if (kvs.map Prod.fst).contains k then
    kvs.map (fun kv => if kv.1 = k then (k, b) else kv)
  else kvs ++ [(k, b)]

/-- `appendAudit(log, message, actor)` from `services/audit.ts`: append one
entry stamped with the current time. -/
def appendAudit (log : List AuditEntry) (now : Int) (message : String) (actor : String) :
    List AuditEntry :=
  log ++ [{ atMs := now, message := message, actor := actor }]

/-! ### The in-memory store (`createInMemoryLaunchPackStore`)

The backing `Map<string, LaunchPack>` is an insertion-ordered list of records
(unique ids). `Map.get`/`Map.set`/`Map.values` become `storeGet`/`storeSet`/
the list itself. -/

/-- The store's state. -/
abbrev Store := List LaunchPack

/-- `store.get(id)`. -/
def storeGet (s : Store) (id : String) : Option LaunchPack :=
  s.find? (fun p => p.id = id)

/-- `store.set(v.id, v)`: replace in place, else append. -/
def storeSet : Store → LaunchPack → Store
  | [], v => [v]
  | p :: rest, v => if p.id = v.id then v :: rest else p :: storeSet rest v

/-- `PUBLISH_COOLDOWN_MS = 10 * 60 * 1000`. -/
def PUBLISH_COOLDOWN_MS : Int := 10 * 60 * 1000

/-- The two publish channels; mirrors the `'tg' | 'x'` key parameter of the
source's `publishStatus(pack, key)` helper. -/
inductive Channel where
  | tg : Channel
  | x : Channel
deriving Repr, DecidableEq

/-- Per-channel publish status field (`tg_publish_status` / `x_publish_status`). -/
def Ops.pubStatus (o : Ops) : Channel → Option String
  | .tg => o.tg_publish_status
  | .x => o.x_publish_status

/-- Per-channel `*_publish_failed_at` field. -/
def Ops.pubFailedAt (o : Ops) : Channel → Option Int
  | .tg => o.tg_publish_failed_at
  | .x => o.x_publish_failed_at

/-- Per-channel `*_publish_error_code` field. -/
def Ops.pubErrorCode (o : Ops) : Channel → Option String
  | .tg => o.tg_publish_error_code
  | .x => o.x_publish_error_code

/-- Per-channel `*_publish_error_message` field. -/
def Ops.pubErrorMessage (o : Ops) : Channel → Option String
  | .tg => o.tg_publish_error_message
  | .x => o.x_publish_error_message

/-- Per-channel `*_publish_attempted_at` field. -/
def Ops.pubAttemptedAt (o : Ops) : Channel → Option Int
  | .tg => o.tg_publish_attempted_at
  | .x => o.x_publish_attempted_at

/-- `publishStatus(pack, key)` from the repository module: the channel status
defaulted to `'idle'`, and the parsed `failed_at` timestamp. -/
def publishStatus (p : LaunchPack) (ch : Channel) : String × Option Int :=
  ((p.ops.pubStatus ch).getD "idle", p.ops.pubFailedAt ch)

/-- The record built by `create`: `{...parsed, id: parsed.id ?? randomUUID(),
version: parsed.version ?? 1, created_at, updated_at}`. `input` is the
zod-parsed create input (validation already applied); an empty `id` string
models the absent optional `id`, so `parsed.id ?? randomUUID()` becomes the
`freshId` fallback. -/
def createRecord (input : LaunchPack) (freshId : String) (now : Int) : LaunchPack :=
  { input with
    id := if input.id = "" then freshId else input.id,
    version := some (input.version.getD 1),
    created_at := some now,
    updated_at := some now }

/-- The in-memory `create`: returns the first stored record sharing a present
`idempotency_key` (no write), else persists `createRecord`. -/
def memCreate (s : Store) (input : LaunchPack) (freshId : String) (now : Int) :
    LaunchPack × Store :=
  match input.idempotency_key with
  | some key =>
    match s.find? (fun v => v.idempotency_key = some key) with
    | some existing => (existing, s)
    | none => (createRecord input freshId now, storeSet s (createRecord input freshId now))
  | none => (createRecord input freshId now, storeSet s (createRecord input freshId now))

/-- The in-memory `update(id, patch)`. `mergeData` stands for
`deepMerge(existing, LaunchPackValidation.update(patch))` — the data produced
by the structural merge — after which the source forces `id`, stamps
`updated_at` and bumps `version` by 1 (`(existing.version ?? 1) + 1`),
independently of the patch. `none` is the thrown `LaunchPack not found`. -/
def memUpdate (s : Store) (id : String) (mergeData : LaunchPack → LaunchPack) (now : Int) :
    Option (LaunchPack × Store) :=
  match storeGet s id with
  | none => none
  | some existing =>
    let merged0 := mergeData existing
    let merged : LaunchPack :=
      { merged0 with
        id := id,
        updated_at := some now,
        version := some ((existing.version.getD 1) + 1) }
    some (merged, storeSet s merged)

/-- The in-memory `claimLaunch(id, {requested_at, status})`: returns `null`
(and leaves the store untouched) unless `launch.status ≠ 'launched'` and
(`launch.requested_at` unset or `launch.status == 'failed'`); on success sets
`launch.requested_at`/`launch.status`, stamps `updated_at` and bumps `version`. -/
def memClaimLaunch (s : Store) (id : String) (requestedAt : Int) (status : String) (now : Int) :
    Option LaunchPack × Store :=
  match storeGet s id with
  | none => (none, s)
  | some existing =>
    if existing.launch.status = "launched" then (none, s)
    else if existing.launch.requested_at.isSome ∧ existing.launch.status ≠ "failed" then (none, s)
    else
      let updated : LaunchPack :=
        { existing with
          launch := { existing.launch with requested_at := some requestedAt, status := status },
          updated_at := some now,
          version := some ((existing.version.getD 1) + 1) }
      (some updated, storeSet s updated)

/-- The cooldown gate of the in-memory publish claims: with status `failed` and
no `force`, the claim is refused when a truthy `failed_at` lies within the
10-minute window (`failedMs && now - failedMs < PUBLISH_COOLDOWN_MS`; a missing
`failed_at` reads as 0, which is falsy and lets the claim through). -/
def memCooldownBlocked (now : Int) (failedAt : Option Int) : Prop :=
  match failedAt with
  | some t => t ≠ 0 ∧ now - t < PUBLISH_COOLDOWN_MS
  | none => False

instance (now : Int) (failedAt : Option Int) : Decidable (memCooldownBlocked now failedAt) := by
  unfold memCooldownBlocked
  cases failedAt <;> infer_instance

/-- The per-channel success mutation of the in-memory publish claims: status
`in_progress`, `attempted_at := requested_at`, both error fields cleared
(set to `undefined`). -/
def Ops.claimPublishFields (o : Ops) (ch : Channel) (requestedAt : Int) : Ops :=
  match ch with
  | .tg =>
    { o with
      tg_publish_status := some "in_progress",
      tg_publish_attempted_at := some requestedAt,
      tg_publish_error_code := none,
      tg_publish_error_message := none }
  | .x =>
    { o with
      x_publish_status := some "in_progress",
      x_publish_attempted_at := some requestedAt,
      x_publish_error_code := none,
      x_publish_error_message := none }

/-- The in-memory `claimTelegramPublish` / `claimXPublish` (they differ only in
the channel fields touched, selected by `ch`). -/
def memClaimPublish (s : Store) (ch : Channel) (id : String) (requestedAt : Int) (force : Bool)
    (now : Int) : Option LaunchPack × Store :=
  match storeGet s id with
  | none => (none, s)
  | some existing =>
    let st := (publishStatus existing ch).1
    let failedAt := (publishStatus existing ch).2
    if st = "published" ∨ st = "in_progress" then (none, s)
    else if st = "failed" ∧ force = false ∧ memCooldownBlocked now failedAt then (none, s)
    else
      let updated : LaunchPack :=
        { existing with
          ops := existing.ops.claimPublishFields ch requestedAt,
          updated_at := some now,
          version := some ((existing.version.getD 1) + 1) }
      (some updated, storeSet s updated)

/-- The in-memory due filter. The JS reads
`pack.tg?.schedule || pack.ops?.tg_schedule_intent || []`; a zod-validated
record always carries a channel schedule array (possibly empty), and an array —
even an empty one — is truthy, so the content schedule is consulted and the
recorded intent fallback is dead for validated records. -/
def memDue (now : Int) (ch : Channel) (p : LaunchPack) : Bool :=
  let st := (publishStatus p ch).1
  if st = "published" ∨ st = "in_progress" then false
  else
    let schedule := match ch with
      | .tg => p.tg.schedule
      | .x => p.x.schedule
    schedule.any (fun item => item.whenAt ≤ now)

/-- The in-memory `findDueTelegramPublishes` / `findDueXPublishes`: walk the
store in insertion order, keep matches, stop at `limit` (the JS loop with its
`results.length >= limit` break) — no sorting, no mutation. -/
def memFindDue (s : Store) (ch : Channel) (now : Int) (limit : Nat) : List LaunchPack :=
  (s.filter (memDue now ch)).take limit

/-! ### The PGlite-backed `LaunchPackRepository`

Each row stores the record as `data` jsonb plus denormalized
`launch_status`/`launch_requested_at` columns kept in sync with
`data.launch` by `create`/`update`/`claimLaunch`; the SQL predicates below are
therefore expressed over the record's `launch` fields. `updated_at = NOW()`
is a column write that `get`/`RETURNING` overlay onto the returned record, so
it is modelled as setting `updated_at`. -/

/-- `LaunchPackRepository.create`: with an `idempotency_key`, a prior row with
that key is returned as-is (no write); otherwise the record is inserted
(`ON CONFLICT (id)` cannot fire for a fresh `randomUUID`, so this is a plain
insert, modelled with the same `storeSet` replace-or-append). -/
def repoCreate (s : Store) (input : LaunchPack) (freshId : String) (now : Int) :
    LaunchPack × Store :=
  match input.idempotency_key with
  | some key =>
    match s.find? (fun v => v.idempotency_key = some key) with
    | some existing => (existing, s)
    | none => (createRecord input freshId now, storeSet s (createRecord input freshId now))
  | none => (createRecord input freshId now, storeSet s (createRecord input freshId now))

/-- `LaunchPackRepository.claimLaunch`: the conditional
`UPDATE ... WHERE id = $1 AND launch_status <> 'launched' AND
(launch_requested_at IS NULL OR launch_status = 'failed')`. On a match it
`jsonb_set`s `launch.requested_at` and `launch.status` and stamps
`updated_at`; `data.version` is not touched. No match returns `null` with the
row unchanged. -/
def repoClaimLaunch (s : Store) (id : String) (requestedAt : Int) (status : String) (now : Int) :
    Option LaunchPack × Store :=
  match storeGet s id with
  | none => (none, s)
  | some existing =>
    if existing.launch.status ≠ "launched" ∧
        (existing.launch.requested_at = none ∨ existing.launch.status = "failed") then
      let updated : LaunchPack :=
        { existing with
          launch := { existing.launch with requested_at := some requestedAt, status := status },
          updated_at := some now }
      (some updated, storeSet s updated)
    else (none, s)

/-- The SQL cooldown condition of the repository publish claims:
`COALESCE((data->'ops'->>'*_publish_failed_at')::timestamptz, TO_TIMESTAMP(0))
<= NOW() - INTERVAL '10 minutes'`. -/
def repoCooldownOver (now : Int) (failedAt : Option Int) : Prop :=
  failedAt.getD 0 ≤ now - PUBLISH_COOLDOWN_MS

instance (now : Int) (failedAt : Option Int) : Decidable (repoCooldownOver now failedAt) :=
  Int.decLe _ _

/-- The per-channel `jsonb_set` chain of the repository publish claims: status
`in_progress`, `attempted_at := requested_at`, `*_publish_error_code` set to
jsonb `null` — the error *message* field is left untouched. -/
def Ops.repoClaimPublishFields (o : Ops) (ch : Channel) (requestedAt : Int) : Ops :=
  match ch with
  | .tg =>
    { o with
      tg_publish_status := some "in_progress",
      tg_publish_attempted_at := some requestedAt,
      tg_publish_error_code := none }
  | .x =>
    { o with
      x_publish_status := some "in_progress",
      x_publish_attempted_at := some requestedAt,
      x_publish_error_code := none }

/-- `LaunchPackRepository.claimTelegramPublish` / `claimXPublish`: the
conditional `UPDATE` succeeds when the coalesced status is neither
`published` nor `in_progress`, and is `idle`, or is `failed` with `force`
or the 10-minute cooldown over; `data.version` is not touched. -/
def repoClaimPublish (s : Store) (ch : Channel) (id : String) (requestedAt : Int) (force : Bool)
    (now : Int) : Option LaunchPack × Store :=
  match storeGet s id with
  | none => (none, s)
  | some existing =>
    let st := (publishStatus existing ch).1
    let failedAt := (publishStatus existing ch).2
    if st ≠ "published" ∧ st ≠ "in_progress" ∧
        (st = "idle" ∨ (st = "failed" ∧ (force = true ∨ repoCooldownOver now failedAt))) then
      let updated : LaunchPack :=
        { existing with
          ops := existing.ops.repoClaimPublishFields ch requestedAt,
          updated_at := some now }
      (some updated, storeSet s updated)
    else (none, s)

/-- The repository due filter: coalesced status not in
(`in_progress`, `published`), and
`COALESCE(data->'ops'->'*_schedule_intent', data->'*'->'schedule', '[]')`
— the recorded schedule intent, falling back to the channel content schedule —
has an entry with `when <= now`. -/
def repoDue (now : Int) (ch : Channel) (p : LaunchPack) : Bool :=
  let st := (publishStatus p ch).1
  if st = "in_progress" ∨ st = "published" then false
  else
    let schedule := match ch with
      | .tg => p.ops.tg_schedule_intent.getD p.tg.schedule
      | .x => p.ops.x_schedule_intent.getD p.x.schedule
    schedule.any (fun item => item.whenAt ≤ now)

/-- `ORDER BY updated_at ASC` key. -/
def updatedLe (a b : LaunchPack) : Prop :=
  a.updated_at.getD 0 ≤ b.updated_at.getD 0

instance : DecidableRel updatedLe := fun _ _ => Int.decLe _ _

instance : IsTotal LaunchPack updatedLe :=
  ⟨fun a b => Int.le_total (a.updated_at.getD 0) (b.updated_at.getD 0)⟩

instance : IsTrans LaunchPack updatedLe :=
  ⟨fun _ _ _ h1 h2 => Int.le_trans h1 h2⟩

/-- `LaunchPackRepository.findDueTelegramPublishes` / `findDueXPublishes`:
read-only `SELECT ... WHERE <due> ORDER BY updated_at ASC LIMIT $2`. -/
def repoFindDue (s : Store) (ch : Channel) (now : Int) (limit : Nat) : List LaunchPack :=
  (List.insertionSort updatedLe (s.filter (repoDue now ch))).take limit

/-! ### Orchestrators

Thrown errors are `ErrInfo` values (`errorWithCode`); an empty `code` models a
plain `Error` without a `code` property. Every external network call is an
oracle parameter, and the number of remote calls actually issued is returned
alongside the result. `nowIso()` is the single `now` parameter. -/

/-- A structured error: stable `code`, `message`, and the `missingKeys` detail
where the source attaches one. -/
structure ErrInfo where
  code : String
  message : String
  missingKeys : List String := []
deriving Repr, DecidableEq

/-- Telegram configuration read from the environment
(`TG_ENABLE === 'true'`, `TG_BOT_TOKEN`, `TG_CHAT_ID`; a missing or empty
variable is `none`). -/
structure TgEnv where
  enabled : Bool
  botToken : Option String
  chatId : Option String
deriving Repr, DecidableEq

/-- Outcome of one Telegram RPC (`tgApi`): an error response throws
`TG_PUBLISH_FAILED`; a `sendMessage` success may still lack `message_id`. -/
inductive TgApiResult where
  | ok : Option Int → TgApiResult
  | fail : TgApiResult
deriving Repr, DecidableEq

/-- `maybeSendAndPin(text)`: nothing for an empty pin text; otherwise one
`sendMessage` call (consuming `oracle k`) and, on success with a `message_id`,
one `pinChatMessage` call (`oracle (k+1)`). Returns the optional message id
(or the thrown error) together with the updated remote-call counter. -/
def maybeSendAndPin (oracle : Nat → TgApiResult) (text : String) (k : Nat) :
    Except ErrInfo (Option Int) × Nat :=
  if text = "" then (.ok none, k)
  else
    match oracle k with
    | .fail => (.error ⟨"TG_PUBLISH_FAILED", "Telegram sendMessage failed", []⟩, k + 1)
    | .ok none =>
      (.error ⟨"TG_PUBLISH_FAILED", "Telegram sendMessage missing message_id", []⟩, k + 1)
    | .ok (some mid) =>
      match oracle (k + 1) with
      | .fail => (.error ⟨"TG_PUBLISH_FAILED", "Telegram pinChatMessage failed", []⟩, k + 2)
      | .ok _ => (.ok (some mid), k + 2)

/-- The publisher's pinned sequence: welcome, how-to-buy, meme-kit in order,
collecting `String(messageId)` for each pin actually sent. -/
def tgRunPins (oracle : Nat → TgApiResult) (pins : TgPins) : Except ErrInfo (List String) × Nat :=
  match maybeSendAndPin oracle pins.welcome 0 with
  | (.error e, k) => (.error e, k)
  | (.ok w, k1) =>
    match maybeSendAndPin oracle pins.how_to_buy k1 with
    | (.error e, k) => (.error e, k)
    | (.ok h, k2) =>
      match maybeSendAndPin oracle pins.memekit k2 with
      | (.error e, k) => (.error e, k)
      | (.ok m, k3) =>
        (.ok ((w.map toString).toList ++ (h.map toString).toList ++ (m.map toString).toList), k3)

/-- The deep-merged `ops` of the Telegram success update. The patch spreads the
whole `claim.ops` and overrides the fields below, so against the just-claimed
record the merge yields `claim.ops` with these overrides; the patch's
`tg_publish_error_code: null` / `tg_publish_error_message: null` entries keep
the stored values under `deepMerge` (which the claim had set to `undefined`). -/
def tgSuccessOps (claimOps : Ops) (messageIds : List String) (intent : List ScheduleItem)
    (now : Int) : Ops :=
  { claimOps with
    checklist := checklistSet claimOps.checklist "tg_published" true,
    tg_publish_status := some "published",
    tg_published_at := some now,
    tg_message_ids := some messageIds,
    tg_schedule_intent := some intent,
    audit_log := appendAudit claimOps.audit_log now "Telegram publish complete" "eliza" }

/-- The deep-merged `ops` of the Telegram failure update: terminal `failed`
state with the failing code (defaulted to `TG_PUBLISH_FAILED` when the error
carries none) and message. No audit entry is appended here. -/
def tgFailureOps (claimOps : Ops) (e : ErrInfo) (now : Int) : Ops :=
  { claimOps with
    tg_publish_status := some "failed",
    tg_publish_failed_at := some now,
    tg_publish_error_code := some (if e.code = "" then "TG_PUBLISH_FAILED" else e.code),
    tg_publish_error_message := some e.message }

/-- `TelegramPublisherService.publish(id, {force})`: feature flag and
credential checks, checklist gate, published short-circuit, atomic claim,
pinned sequence, then commit (`published` on success, `failed` on any step
failure, re-raising the error). Returns the result, the final store, and the
number of remote calls issued. -/
def tgPublish (env : TgEnv) (s : Store) (id : String) (force : Bool)
    (oracle : Nat → TgApiResult) (now : Int) :
    Except ErrInfo LaunchPack × Store × Nat :=
  if env.enabled = false then
    (.error ⟨"TG_DISABLED", "Telegram publishing disabled", []⟩, s, 0)
  else
    let missing := (if env.botToken = none then ["TG_BOT_TOKEN"] else []) ++
      (if env.chatId = none then ["TG_CHAT_ID"] else [])
    if missing ≠ [] then
      (.error ⟨"TG_CONFIG_MISSING", "Telegram configuration missing", missing⟩, s, 0)
    else
      match storeGet s id with
      | none => (.error ⟨"NOT_FOUND", "LaunchPack not found", []⟩, s, 0)
      | some pack =>
        if checklistGet pack.ops.checklist "tg_ready" = false then
          (.error ⟨"TG_NOT_READY", "Telegram checklist not ready", []⟩, s, 0)
        else if pack.ops.tg_published_at.isSome ∧ pack.ops.tg_publish_status = some "published" ∧
            force = false then
          (.ok pack, s, 0)
        else
          match memClaimPublish s .tg id now force now with
          | (none, s1) =>
            (.error ⟨"TG_PUBLISH_IN_PROGRESS", "Telegram publish already in progress", []⟩, s1, 0)
          | (some claim, s1) =>
            match tgRunPins oracle claim.tg.pins with
            | (.error e, k) =>
              match memUpdate s1 id (fun ex => { ex with ops := tgFailureOps claim.ops e now }) now with
              | none => (.error ⟨"", "LaunchPack not found", []⟩, s1, k)
              | some (_, s2) => (.error e, s2, k)
            | (.ok messageIds, k) =>
              match memUpdate s1 id
                  (fun ex => { ex with ops := tgSuccessOps claim.ops messageIds claim.tg.schedule now })
                  now with
              | none => (.error ⟨"", "LaunchPack not found", []⟩, s1, k)
              | some (updated, s2) => (.ok updated, s2, k)

/-- X configuration (`X_ENABLE === 'true'` and the four credentials). -/
structure XEnv where
  enabled : Bool
  apiKey : Option String
  apiSecret : Option String
  accessToken : Option String
  accessSecret : Option String
deriving Repr, DecidableEq

/-- `postTweet` outcome oracle: `some id` is a success (`json.data.id`),
`none` throws `X_PUBLISH_FAILED`. -/
def xPostFailed : ErrInfo := ⟨"X_PUBLISH_FAILED", "X post failed", []⟩

/-- The threaded posting loop: each entry is posted as a reply to the previous
post's id, in strict order, collecting ids. -/
def xRunThread (oracle : Nat → Option String) :
    List String → Nat → List String → Except ErrInfo (List String) × Nat
  | [], k, acc => (.ok acc, k)
  | _ :: rest, k, acc =>
    match oracle k with
    | none => (.error xPostFailed, k + 1)
    | some tid => xRunThread oracle rest (k + 1) (acc ++ [tid])

/-- The X posting sequence: the main announcement first when present, then the
thread entries as chained replies. -/
def xRunPosts (oracle : Nat → Option String) (mainText : String) (thread : List String) :
    Except ErrInfo (List String) × Nat :=
  if mainText = "" then xRunThread oracle thread 0 []
  else
    match oracle 0 with
    | none => (.error xPostFailed, 1)
    | some tid => xRunThread oracle thread 1 [tid]

/-- The deep-merged `ops` of the X success update (same shape as Telegram's:
the `null` error-field patch entries keep the stored values). -/
def xSuccessOps (claimOps : Ops) (tweetIds : List String) (intent : List ScheduleItem)
    (now : Int) : Ops :=
  { claimOps with
    checklist := checklistSet claimOps.checklist "x_published" true,
    x_publish_status := some "published",
    x_published_at := some now,
    x_post_ids := some tweetIds,
    x_tweet_ids := some tweetIds,
    x_schedule_intent := some intent,
    audit_log := appendAudit claimOps.audit_log now "X publish complete" "eliza" }

/-- The deep-merged `ops` of the X failure update; no audit entry appended. -/
def xFailureOps (claimOps : Ops) (e : ErrInfo) (now : Int) : Ops :=
  { claimOps with
    x_publish_status := some "failed",
    x_publish_failed_at := some now,
    x_publish_error_code := some (if e.code = "" then "X_PUBLISH_FAILED" else e.code),
    x_publish_error_message := some e.message }

/-- `XPublisherService.publish(id, {force})`, with the same shape as the
Telegram publisher. -/
def xPublish (env : XEnv) (s : Store) (id : String) (force : Bool)
    (oracle : Nat → Option String) (now : Int) :
    Except ErrInfo LaunchPack × Store × Nat :=
  if env.enabled = false then
    (.error ⟨"X_DISABLED", "X publishing disabled", []⟩, s, 0)
  else
    let missing := (if env.apiKey = none then ["X_API_KEY"] else []) ++
      (if env.apiSecret = none then ["X_API_SECRET"] else []) ++
      (if env.accessToken = none then ["X_ACCESS_TOKEN"] else []) ++
      (if env.accessSecret = none then ["X_ACCESS_SECRET"] else [])
    if missing ≠ [] then
      (.error ⟨"X_CONFIG_MISSING", "X configuration missing", missing⟩, s, 0)
    else
      match storeGet s id with
      | none => (.error ⟨"NOT_FOUND", "LaunchPack not found", []⟩, s, 0)
      | some pack =>
        if checklistGet pack.ops.checklist "x_ready" = false then
          (.error ⟨"X_NOT_READY", "X checklist not ready", []⟩, s, 0)
        else if pack.ops.x_published_at.isSome ∧ pack.ops.x_publish_status = some "published" ∧
            force = false then
          (.ok pack, s, 0)
        else
          match memClaimPublish s .x id now force now with
          | (none, s1) =>
            (.error ⟨"X_PUBLISH_IN_PROGRESS", "X publish already in progress", []⟩, s1, 0)
          | (some claim, s1) =>
            match xRunPosts oracle claim.x.main_post claim.x.thread with
            | (.error e, k) =>
              match memUpdate s1 id (fun ex => { ex with ops := xFailureOps claim.ops e now }) now with
              | none => (.error ⟨"", "LaunchPack not found", []⟩, s1, k)
              | some (_, s2) => (.error e, s2, k)
            | (.ok tweetIds, k) =>
              match memUpdate s1 id
                  (fun ex => { ex with ops := xSuccessOps claim.ops tweetIds claim.x.schedule now })
                  now with
              | none => (.error ⟨"", "LaunchPack not found", []⟩, s1, k)
              | some (updated, s2) => (.ok updated, s2, k)

/-! ### Launch orchestrator (`PumpLauncherService`) -/

/-- `MAX_LOGO_BYTES = 8 * 1024 * 1024`. -/
def MAX_LOGO_BYTES : Nat := 8 * 1024 * 1024

/-- `LOGO_FETCH_TOTAL_TIMEOUT_MS`, the default total timeout of
`fetchWithTimeout`. -/
def LOGO_FETCH_TOTAL_TIMEOUT_MS : Nat := 20000

/-- `LOGO_FETCH_CONNECT_TIMEOUT_MS`, the default connect timeout of
`fetchWithTimeout`. -/
def LOGO_FETCH_CONNECT_TIMEOUT_MS : Nat := 10000

/-- The (total, connect) timeout budget applied to the wallet-issuance fetch:
`ensureLauncherWallet` calls `fetchWithTimeout('https://pumpportal.fun/api/create-wallet')`
with no explicit timeouts, so the defaults apply. -/
def walletFetchTimeouts : Nat × Nat := (LOGO_FETCH_TOTAL_TIMEOUT_MS, LOGO_FETCH_CONNECT_TIMEOUT_MS)

/-- A provisioned signing wallet (the secrets collaborator's record). -/
structure WalletRecord where
  apiKey : String
  wallet : String
  walletSecret : String
deriving Repr, DecidableEq

/-- The JSON body of a wallet-issuance response; each field is the
corresponding key when present and truthy (an absent or empty-string value is
`none`, matching JavaScript `||` chains). -/
structure WalletBody where
  apiKey : Option String := none
  wallet : Option String := none
  publicKey : Option String := none
  address : Option String := none
  privateKey : Option String := none
  secretKey : Option String := none
  walletSecret : Option String := none
  private_key : Option String := none
deriving Repr, DecidableEq

/-- Validation of a wallet-issuance response (`ensureLauncherWallet` after the
fetch): non-ok response rejected; `wallet` accepted under
`wallet`/`publicKey`/`address`, the secret under
`privateKey`/`secretKey`/`walletSecret`/`private_key`; every missing required
field is named in `missingKeys`; the secret must base58-decode (`decodeLen`,
standing for `bs58.decode(·).length`) to exactly 64 bytes. -/
def walletFromResponse (resOk : Bool) (resStatus : Nat) (body : Option WalletBody)
    (decodeLen : String → Option Nat) : Except ErrInfo WalletRecord :=
  if resOk = false then
    .error ⟨"", "Failed to create launcher wallet (" ++ toString resStatus ++ ")", []⟩
  else
    let b := body.getD {}
    let apiKey := b.apiKey
    let wallet := b.wallet.orElse (fun _ => b.publicKey.orElse (fun _ => b.address))
    let secret := b.privateKey.orElse (fun _ => b.secretKey.orElse
      (fun _ => b.walletSecret.orElse (fun _ => b.private_key)))
    let missing := (if apiKey = none then ["apiKey"] else []) ++
      (if wallet = none then ["wallet"] else []) ++
      (if secret = none then ["walletSecret"] else [])
    match apiKey with
    | none => .error ⟨"INVALID_WALLET_RESPONSE", "Invalid wallet response", missing⟩
    | some a =>
      match wallet with
      | none => .error ⟨"INVALID_WALLET_RESPONSE", "Invalid wallet response", missing⟩
      | some w =>
        match secret with
        | none => .error ⟨"INVALID_WALLET_RESPONSE", "Invalid wallet response", missing⟩
        | some sec =>
          match decodeLen sec with
          | none => .error ⟨"WALLET_SECRET_INVALID", "Wallet secret is not valid base58", []⟩
          | some n =>
            if n ≠ 64 then
              .error ⟨"WALLET_SECRET_INVALID", "Wallet secret must decode to 64 bytes", []⟩
            else .ok ⟨a, w, sec⟩

/-- `ensureLauncherWallet`: a cached record with all three fields truthy is
returned as-is; otherwise the external endpoint's response is validated by
`walletFromResponse` (and, on success, persisted to the secrets store —
a write outside the modelled state). -/
def ensureLauncherWallet (cached : Option WalletRecord) (resOk : Bool) (resStatus : Nat)
    (body : Option WalletBody) (decodeLen : String → Option Nat) :
    Except ErrInfo WalletRecord :=
  match cached with
  | some saved =>
    if saved.apiKey ≠ "" ∧ saved.wallet ≠ "" ∧ saved.walletSecret ≠ "" then .ok saved
    else walletFromResponse resOk resStatus body decodeLen
  | none => walletFromResponse resOk resStatus body decodeLen

/-- Launch configuration: the feature flag, the configured caps, the requested
dev-buy/priority values (`Number(env.MAX_SOL_DEV_BUY || maxDevBuy)` etc.), the
configured slippage (`LAUNCH_SLIPPAGE_PERCENT ?? 10`) and its optional ceiling.
Amounts are integers here, so the source's `isNaN`/`Number.isFinite` guards
cannot fire and are dropped. -/
structure LaunchEnv where
  launchEnabled : Bool
  maxDevBuy : Int
  maxPriorityFee : Int
  requestedDevBuy : Int
  requestedPriority : Int
  slippageRaw : Int
  slippageCap : Option Int
deriving Repr, DecidableEq

/-- The launch retry cooldown gate (`!failedAt || diffMs < cooldownMs`): a
missing or epoch-zero `failed_at` is falsy and blocks, as does a failure
within the last 10 minutes. -/
def launchRetryBlocked (now : Int) (failedAt : Option Int) : Prop :=
  match failedAt with
  | some t => t = 0 ∨ now - t < PUBLISH_COOLDOWN_MS
  | none => True

instance (now : Int) (failedAt : Option Int) : Decidable (launchRetryBlocked now failedAt) := by
  unfold launchRetryBlocked
  cases failedAt <;> infer_instance

/-- `ensureLaunchAllowed(pack, forceRetry)`: the precondition gate run before
the claim; `some e` is the thrown error. A failed previous launch inside the
10-minute cooldown (or with a falsy `failed_at`) blocks the retry unless
forced. -/
def ensureLaunchAllowed (env : LaunchEnv) (p : LaunchPack) (force : Bool) (now : Int) :
    Option ErrInfo :=
  if env.launchEnabled = false then some ⟨"LAUNCH_DISABLED", "Launch disabled", []⟩
  else if p.launch.status = "launched" then some ⟨"ALREADY_LAUNCHED", "Already launched", []⟩
  else if p.launch.requested_at.isSome ∧ p.launch.status ≠ "failed" then
    some ⟨"LAUNCH_IN_PROGRESS", "Launch in progress", []⟩
  else if p.launch.status = "failed" ∧ force = false ∧
      launchRetryBlocked now p.launch.failed_at then
    some ⟨"LAUNCH_FAILED_RETRY_BLOCKED", "Previous launch failed; retry blocked", []⟩
  else none

/-- `enforceCaps()`: requested dev-buy and priority fee must not exceed the
configured maxima. -/
def enforceCaps (env : LaunchEnv) : Option ErrInfo :=
  if env.requestedDevBuy > env.maxDevBuy ∨ env.requestedPriority > env.maxPriorityFee then
    some ⟨"CAP_EXCEEDED", "Caps exceeded", []⟩
  else none

/-- `resolveSlippage()`: the configured percentage must lie in [0, 100] and
not exceed the optional ceiling (itself validated); `Math.floor` is the
identity on integers. -/
def resolveSlippage (env : LaunchEnv) : Except ErrInfo Int :=
  if env.slippageRaw < 0 ∨ 100 < env.slippageRaw then
    .error ⟨"SLIPPAGE_INVALID", "Slippage percent must be between 0 and 100", []⟩
  else
    match env.slippageCap with
    | some cap =>
      if cap < 0 ∨ 100 < cap then
        .error ⟨"SLIPPAGE_INVALID", "MAX_SLIPPAGE_PERCENT must be between 0 and 100", []⟩
      else if env.slippageRaw > cap then
        .error ⟨"SLIPPAGE_INVALID", "Slippage exceeds configured maximum", []⟩
      else .ok env.slippageRaw
    | none => .ok env.slippageRaw

/-- The trade-submission outcome consumed by the success path: the signature
(when the portal returned one) and the validated mint address. -/
structure TradeResult where
  sig : Option String
  mint : String
deriving Repr, DecidableEq

/-- The deep-merged `launch` of the success update (`createTokenOnPumpPortal`'s
result spread over the claimed record): terminal `launched` with
signature/mint/url; the patch's `error_code: undefined`/`error_message:
undefined` entries leave the stored values in place under `deepMerge`. -/
def launchedLaunch (claimLaunch : Launch) (tr : TradeResult) (now : Int) : Launch :=
  { claimLaunch with
    status := "launched",
    tx_signature := tr.sig,
    mint := some tr.mint,
    pump_url := tr.sig.map (fun g => "https://pump.fun/tx/" ++ g),
    completed_at := some now,
    launched_at := some now }

/-- The deep-merged `launch` of the failure update: terminal `failed` with the
failing code (defaulted to `LAUNCH_FAILED`) and message. -/
def failedLaunch (claimLaunch : Launch) (e : ErrInfo) (now : Int) : Launch :=
  { claimLaunch with
    status := "failed",
    failed_at := some now,
    error_code := some (if e.code = "" then "LAUNCH_FAILED" else e.code),
    error_message := some e.message }

/-- The `try` block's sequential external steps: wallet provisioning, then
logo fetch + metadata upload, then trade submission; the first failure
short-circuits (the thrown error reaches the `catch`). -/
def launchSteps (walletStep : Except ErrInfo WalletRecord) (uploadStep : Except ErrInfo String)
    (tradeStep : Except ErrInfo TradeResult) : Except ErrInfo TradeResult :=
  match walletStep with
  | .error e => .error e
  | .ok _ =>
    match uploadStep with
    | .error e => .error e
    | .ok _ => tradeStep

/-- `PumpLauncherService.launch(id, {force})`. The three post-claim external
steps — wallet provisioning, logo fetch + metadata upload, trade submission —
are the `Except`-valued step parameters (each failure is the error the step
throws). On any step failure the terminal `failed` state is persisted with an
audit entry and the error re-raised; on success the `launched` state is
persisted with an audit entry. -/
def pumpLaunch (env : LaunchEnv) (s : Store) (id : String) (force : Bool)
    (walletStep : Except ErrInfo WalletRecord) (uploadStep : Except ErrInfo String)
    (tradeStep : Except ErrInfo TradeResult) (now : Int) :
    Except ErrInfo LaunchPack × Store :=
  match storeGet s id with
  | none => (.error ⟨"", "LaunchPack not found", []⟩, s)
  | some existing =>
    if existing.launch.status = "launched" then (.ok existing, s)
    else
      match ensureLaunchAllowed env existing force now with
      | some e => (.error e, s)
      | none =>
        match enforceCaps env with
        | some e => (.error e, s)
        | none =>
          match resolveSlippage env with
          | .error e => (.error e, s)
          | .ok _ =>
            match memClaimLaunch s id now "ready" now with
            | (none, s1) => (.error ⟨"LAUNCH_IN_PROGRESS", "Launch in progress", []⟩, s1)
            | (some claim, s1) =>
              match launchSteps walletStep uploadStep tradeStep with
              | .error e =>
                match memUpdate s1 id
                    (fun ex =>
                      { ex with
                        launch := failedLaunch claim.launch e now,
                        ops := { claim.ops with
                          audit_log := appendAudit claim.ops.audit_log now
                            ("Launch failed: " ++ e.message) "eliza" } })
                    now with
                | none => (.error ⟨"", "LaunchPack not found", []⟩, s1)
                | some (_, s2) => (.error e, s2)
              | .ok tr =>
                match memUpdate s1 id
                    (fun ex =>
                      { ex with
                        launch := launchedLaunch claim.launch tr now,
                        ops := { claim.ops with
                          audit_log := appendAudit claim.ops.audit_log now
                            "Pump launch complete" "eliza" } })
                    now with
                | none => (.error ⟨"", "LaunchPack not found", []⟩, s1)
                | some (saved, s2) => (.ok saved, s2)

/-! ### Concrete fixtures used by witnesses and counterexamples -/

/-- A `failed` Telegram publish state carrying a stored error message. -/
def tgFailedOpsFixture : Ops :=
  { tg_publish_status := some "failed", tg_publish_error_message := some "boom" }

/-- A LaunchPack whose Telegram publish previously failed with message
`"boom"`. -/
def tgFailedPackFixture : LaunchPack :=
  { id := "p", ops := tgFailedOpsFixture }

/-- Operational state of a record already published on both channels, with
persisted result ids and ready checklists. -/
def publishedOpsFixture : Ops :=
  { checklist := [("tg_ready", true), ("x_ready", true)],
    tg_publish_status := some "published",
    tg_published_at := some 10,
    tg_message_ids := some ["1", "2", "3"],
    x_publish_status := some "published",
    x_published_at := some 10,
    x_post_ids := some ["100", "101", "102"] }

/-- A record already published on both channels. -/
def publishedPackFixture : LaunchPack :=
  { id := "p", ops := publishedOpsFixture }

/-- A one-entry schedule due at any `now ≥ 50`. -/
def dueScheduleFixture : List ScheduleItem := [⟨50, "post"⟩]

/-- A due record last updated at 100. -/
def duePackLate : LaunchPack :=
  { id := "a", updated_at := some 100,
    tg := { schedule := dueScheduleFixture }, x := { schedule := dueScheduleFixture } }

/-- A due record last updated at 50. -/
def duePackEarly : LaunchPack :=
  { id := "b", updated_at := some 50,
    tg := { schedule := dueScheduleFixture }, x := { schedule := dueScheduleFixture } }

/-- A wallet-issuance response body using the alternate field names
(`publicKey`, `privateKey`). -/
def walletBodyOkFixture : WalletBody :=
  { apiKey := some "k", publicKey := some "pub", privateKey := some "sec" }

/-- Operational state with only the Telegram readiness flag set. -/
def tgReadyOpsFixture : Ops := { checklist := [("tg_ready", true)] }

/-- A Telegram-ready record with one non-empty pin and an empty audit log. -/
def tgReadyPackFixture : LaunchPack :=
  { id := "p", ops := tgReadyOpsFixture, tg := { pins := { welcome := "hi" } } }

/-- A launch configuration with the feature enabled and all requests within
caps. -/
def launchEnvFixture : LaunchEnv :=
  { launchEnabled := true, maxDevBuy := 5, maxPriorityFee := 2,
    requestedDevBuy := 1, requestedPriority := 1, slippageRaw := 10, slippageCap := none }

/-- A wallet-provisioning failure. -/
def walletFailErr : ErrInfo := ⟨"WALLET_FAIL", "wallet down", []⟩

/-- A fresh draft record with an empty audit log. -/
def launchDraftPack : LaunchPack := { id := "p" }

/-! ## General lemmas about the store -/

theorem storeGet_some_id {s : Store} {id : String} {p : LaunchPack}
    (h : storeGet s id = some p) : p.id = id := by
  have := List.find?_some h
  simpa using this

theorem storeGet_storeSet_self (s : Store) (v : LaunchPack) :
    storeGet (storeSet s v) v.id = some v := by
  induction s with
  | nil => simp [storeSet, storeGet, List.find?]
  | cons p rest ih =>
    by_cases h : p.id = v.id
    · simp [storeSet, h, storeGet, List.find?]
    · simp only [storeSet, if_neg h]
      simp only [storeGet, List.find?] at ih ⊢
      simp [h, ih]

theorem memClaimLaunch_success {s : Store} {id : String} {p : LaunchPack} {req now : Int}
    {status : String} (h : storeGet s id = some p)
    (h1 : p.launch.status ≠ "launched")
    (h2 : p.launch.requested_at = none ∨ p.launch.status = "failed") :
    memClaimLaunch s id req status now =
      (some { p with
        launch := { p.launch with requested_at := some req, status := status },
        updated_at := some now,
        version := some ((p.version.getD 1) + 1) },
       storeSet s { p with
        launch := { p.launch with requested_at := some req, status := status },
        updated_at := some now,
        version := some ((p.version.getD 1) + 1) }) := by
  simp only [memClaimLaunch, h]
  rw [if_neg h1, if_neg ?hn]
  case hn =>
    rintro ⟨hsome, hne⟩
    rcases h2 with hnone | hfail
    · rw [hnone] at hsome; simp at hsome
    · exact hne hfail

theorem memClaimLaunch_blocked {s : Store} {id : String} {p : LaunchPack} {req now : Int}
    {status : String} (h : storeGet s id = some p)
    (h1 : p.launch.status ≠ "launched")
    (h2 : p.launch.requested_at.isSome)
    (h3 : p.launch.status ≠ "failed") :
    memClaimLaunch s id req status now = (none, s) := by
  simp only [memClaimLaunch, h]
  rw [if_neg h1, if_pos ⟨h2, h3⟩]

theorem memClaimLaunch_spec {s : Store} {id : String} {p : LaunchPack} (req now : Int)
    (status : String) (h : storeGet s id = some p) :
    (memClaimLaunch s id req status now = (none, s) ∧
      ¬(p.launch.status ≠ "launched" ∧
        (p.launch.requested_at = none ∨ p.launch.status = "failed"))) ∨
    ((p.launch.status ≠ "launched" ∧
        (p.launch.requested_at = none ∨ p.launch.status = "failed")) ∧
      memClaimLaunch s id req status now =
        (some { p with
          launch := { p.launch with requested_at := some req, status := status },
          updated_at := some now,
          version := some ((p.version.getD 1) + 1) },
         storeSet s { p with
          launch := { p.launch with requested_at := some req, status := status },
          updated_at := some now,
          version := some ((p.version.getD 1) + 1) })) := by
  by_cases hc : p.launch.status ≠ "launched" ∧
      (p.launch.requested_at = none ∨ p.launch.status = "failed")
  · exact Or.inr ⟨hc, memClaimLaunch_success h hc.1 hc.2⟩
  · left
    refine ⟨?_, hc⟩
    simp only [memClaimLaunch, h]
    rw [not_and_or] at hc
    rcases hc with hl | hro
    · rw [not_not] at hl
      rw [if_pos hl]
    · rw [not_or] at hro
      by_cases hl2 : p.launch.status = "launched"
      · rw [if_pos hl2]
      · rw [if_neg hl2, if_pos ⟨Option.isSome_iff_ne_none.mpr hro.1, hro.2⟩]

theorem memClaimPublish_spec {s : Store} {ch : Channel} {id : String} {p : LaunchPack}
    (req now : Int) (force : Bool) (h : storeGet s id = some p) :
    (memClaimPublish s ch id req force now = (none, s) ∧
      ¬(¬((publishStatus p ch).1 = "published" ∨ (publishStatus p ch).1 = "in_progress") ∧
        ¬((publishStatus p ch).1 = "failed" ∧ force = false ∧
          memCooldownBlocked now (publishStatus p ch).2))) ∨
    ((¬((publishStatus p ch).1 = "published" ∨ (publishStatus p ch).1 = "in_progress") ∧
        ¬((publishStatus p ch).1 = "failed" ∧ force = false ∧
          memCooldownBlocked now (publishStatus p ch).2)) ∧
      memClaimPublish s ch id req force now =
        (some { p with
          ops := p.ops.claimPublishFields ch req,
          updated_at := some now,
          version := some ((p.version.getD 1) + 1) },
         storeSet s { p with
          ops := p.ops.claimPublishFields ch req,
          updated_at := some now,
          version := some ((p.version.getD 1) + 1) })) := by
  by_cases hA : (publishStatus p ch).1 = "published" ∨ (publishStatus p ch).1 = "in_progress"
  · left
    refine ⟨?_, by rintro ⟨hnA, _⟩; exact hnA hA⟩
    simp only [memClaimPublish, h]
    rw [if_pos hA]
  · by_cases hB : (publishStatus p ch).1 = "failed" ∧ force = false ∧
        memCooldownBlocked now (publishStatus p ch).2
    · left
      refine ⟨?_, by rintro ⟨_, hnB⟩; exact hnB hB⟩
      simp only [memClaimPublish, h]
      rw [if_neg hA, if_pos hB]
    · right
      refine ⟨⟨hA, hB⟩, ?_⟩
      simp only [memClaimPublish, h]
      rw [if_neg hA, if_neg hB]

theorem repoClaimLaunch_spec {s : Store} {id : String} {p : LaunchPack} (req now : Int)
    (status : String) (h : storeGet s id = some p) :
    (repoClaimLaunch s id req status now = (none, s) ∧
      ¬(p.launch.status ≠ "launched" ∧
        (p.launch.requested_at = none ∨ p.launch.status = "failed"))) ∨
    ((p.launch.status ≠ "launched" ∧
        (p.launch.requested_at = none ∨ p.launch.status = "failed")) ∧
      repoClaimLaunch s id req status now =
        (some { p with
          launch := { p.launch with requested_at := some req, status := status },
          updated_at := some now },
         storeSet s { p with
          launch := { p.launch with requested_at := some req, status := status },
          updated_at := some now })) := by
  by_cases hc : p.launch.status ≠ "launched" ∧
      (p.launch.requested_at = none ∨ p.launch.status = "failed")
  · right
    refine ⟨hc, ?_⟩
    simp only [repoClaimLaunch, h]
    rw [if_pos hc]
  · left
    refine ⟨?_, hc⟩
    simp only [repoClaimLaunch, h]
    rw [if_neg hc]

theorem repoClaimPublish_spec {s : Store} {ch : Channel} {id : String} {p : LaunchPack}
    (req now : Int) (force : Bool) (h : storeGet s id = some p) :
    (repoClaimPublish s ch id req force now = (none, s) ∧
      ¬((publishStatus p ch).1 ≠ "published" ∧ (publishStatus p ch).1 ≠ "in_progress" ∧
        ((publishStatus p ch).1 = "idle" ∨ ((publishStatus p ch).1 = "failed" ∧
          (force = true ∨ repoCooldownOver now (publishStatus p ch).2))))) ∨
    (((publishStatus p ch).1 ≠ "published" ∧ (publishStatus p ch).1 ≠ "in_progress" ∧
        ((publishStatus p ch).1 = "idle" ∨ ((publishStatus p ch).1 = "failed" ∧
          (force = true ∨ repoCooldownOver now (publishStatus p ch).2)))) ∧
      repoClaimPublish s ch id req force now =
        (some { p with
          ops := p.ops.repoClaimPublishFields ch req,
          updated_at := some now },
         storeSet s { p with
          ops := p.ops.repoClaimPublishFields ch req,
          updated_at := some now })) := by
  by_cases hc : (publishStatus p ch).1 ≠ "published" ∧ (publishStatus p ch).1 ≠ "in_progress" ∧
      ((publishStatus p ch).1 = "idle" ∨ ((publishStatus p ch).1 = "failed" ∧
        (force = true ∨ repoCooldownOver now (publishStatus p ch).2)))
  · right
    refine ⟨hc, ?_⟩
    simp only [repoClaimPublish, h]
    rw [if_pos hc]
  · left
    refine ⟨?_, hc⟩
    simp only [repoClaimPublish, h]
    rw [if_neg hc]

/-! ## C1 — claimLaunch single-winner conditional transition -/

/-- C1. For every LaunchPack id, `claimLaunch(id, {requested_at, status})`
succeeds (setting `launch.requested_at` and `launch.status` and returning the
updated, persisted record) if and only if the current `launch.status` is not
`"launched"` and (`launch.requested_at` is unset or the current status is
`"failed"`); in every other case it returns null and leaves the store
completely unchanged. For a fresh draft record, of two claims in sequence the
first returns the updated record with status `"ready"` and the second returns
null. The PGlite repository's conditional `UPDATE` implements the same
success predicate. -/
theorem c1_claimLaunch_single_winner :
    (∀ (s : Store) (id : String) (p : LaunchPack) (req now : Int) (status : String),
      storeGet s id = some p →
      (((memClaimLaunch s id req status now).1.isSome ↔
          (p.launch.status ≠ "launched" ∧
            (p.launch.requested_at = none ∨ p.launch.status = "failed"))) ∧
        (∀ r, (memClaimLaunch s id req status now).1 = some r →
          r.launch.requested_at = some req ∧ r.launch.status = status ∧
          r.version = some ((p.version.getD 1) + 1) ∧
          storeGet (memClaimLaunch s id req status now).2 id = some r) ∧
        ((memClaimLaunch s id req status now).1 = none →
          (memClaimLaunch s id req status now).2 = s))) ∧
    (∀ (s : Store) (id : String) (p : LaunchPack) (req1 req2 now1 now2 : Int),
      storeGet s id = some p →
      p.launch.status = "draft" → p.launch.requested_at = none →
      ∃ r, (memClaimLaunch s id req1 "ready" now1).1 = some r ∧
        r.launch.status = "ready" ∧ r.launch.requested_at = some req1 ∧
        memClaimLaunch (memClaimLaunch s id req1 "ready" now1).2 id req2 "ready" now2 =
          (none, (memClaimLaunch s id req1 "ready" now1).2)) ∧
    (∀ (s : Store) (id : String) (p : LaunchPack) (req now : Int) (status : String),
      storeGet s id = some p →
      (((repoClaimLaunch s id req status now).1.isSome ↔
          (p.launch.status ≠ "launched" ∧
            (p.launch.requested_at = none ∨ p.launch.status = "failed"))) ∧
        ((repoClaimLaunch s id req status now).1 = none →
          (repoClaimLaunch s id req status now).2 = s))) := by
  refine ⟨?mem, ?scenario, ?repo⟩
  case mem =>
    intro s id p req now status h
    refine ⟨?iff, ?succ, ?fail⟩
    case iff =>
      simp only [memClaimLaunch, h]
      split_ifs with h1 h2
      · simp [h1]
      · constructor
        · intro hc; simp at hc
        · rintro ⟨hne, hnone | hfail⟩
          · rw [hnone] at h2
            exact absurd h2.1 (by simp)
          · exact absurd hfail h2.2
      · simp only [Option.isSome_some, true_iff]
        refine ⟨h1, ?_⟩
        by_cases hr : p.launch.requested_at = none
        · exact Or.inl hr
        · right
          by_contra hf
          exact h2 ⟨Option.isSome_iff_ne_none.mpr hr, hf⟩
    case succ =>
      intro r hr
      have hcases : p.launch.status ≠ "launched" ∧
          (p.launch.requested_at = none ∨ p.launch.status = "failed") := by
        by_contra hc
        have : (memClaimLaunch s id req status now).1 = none := by
          simp only [memClaimLaunch, h]
          split_ifs with h1 h2
          · rfl
          · rfl
          · exfalso
            apply hc
            refine ⟨h1, ?_⟩
            by_cases hn : p.launch.requested_at = none
            · exact Or.inl hn
            · right
              by_contra hf
              exact h2 ⟨Option.isSome_iff_ne_none.mpr hn, hf⟩
        rw [this] at hr; exact Option.noConfusion hr
      have heq := @memClaimLaunch_success s id p req now status h hcases.1 hcases.2
      rw [heq] at hr ⊢
      simp only [Option.some.injEq] at hr
      subst hr
      refine ⟨rfl, rfl, rfl, ?_⟩
      have hid : p.id = id := storeGet_some_id h
      have := storeGet_storeSet_self s { p with
        launch := { p.launch with requested_at := some req, status := status },
        updated_at := some now,
        version := some ((p.version.getD 1) + 1) }
      simpa [hid] using this
    case fail =>
      simp only [memClaimLaunch, h]
      split_ifs with h1 h2
      · exact fun _ => rfl
      · exact fun _ => rfl
      · intro hc; exact absurd hc (by simp)
  case scenario =>
    intro s id p req1 req2 now1 now2 h hdraft hnone
    have heq := @memClaimLaunch_success s id p req1 now1 "ready" h (by rw [hdraft]; decide)
      (Or.inl hnone)
    have hid : p.id = id := storeGet_some_id h
    refine ⟨{ p with
      launch := { p.launch with requested_at := some req1, status := "ready" },
      updated_at := some now1,
      version := some ((p.version.getD 1) + 1) }, by rw [heq], rfl, rfl, ?_⟩
    have hget : storeGet (memClaimLaunch s id req1 "ready" now1).2 id = some { p with
        launch := { p.launch with requested_at := some req1, status := "ready" },
        updated_at := some now1,
        version := some ((p.version.getD 1) + 1) } := by
      rw [heq]
      simpa [hid] using storeGet_storeSet_self s { p with
        launch := { p.launch with requested_at := some req1, status := "ready" },
        updated_at := some now1,
        version := some ((p.version.getD 1) + 1) }
    exact memClaimLaunch_blocked hget (by simp) rfl (by simp)
  case repo =>
    intro s id p req now status h
    constructor
    · simp only [repoClaimLaunch, h]
      split_ifs with h1
      · simpa using h1
      · constructor
        · intro hc; simp at hc
        · intro hc; exact absurd hc h1
    · simp only [repoClaimLaunch, h]
      split_ifs with h1
      · intro hc; exact absurd hc (by simp)
      · exact fun _ => rfl

/-- C1 witness: the two-calls-in-sequence scenario evaluated on a concrete
fresh draft record. -/
theorem c1_claimLaunch_single_winner_witness :
    ∃ r, (memClaimLaunch [({ id := "p1" } : LaunchPack)] "p1" 5 "ready" 7).1 = some r ∧
      r.launch.status = "ready" ∧ r.launch.requested_at = some 5 ∧
      memClaimLaunch (memClaimLaunch [({ id := "p1" } : LaunchPack)] "p1" 5 "ready" 7).2
          "p1" 6 "ready" 8 =
        (none, (memClaimLaunch [({ id := "p1" } : LaunchPack)] "p1" 5 "ready" 7).2) :=
  c1_claimLaunch_single_winner.2.1 [({ id := "p1" } : LaunchPack)] "p1"
    ({ id := "p1" } : LaunchPack) 5 6 7 8 rfl rfl rfl

/-! ## C3 — version increments (corrected) -/

/-- C3 counterexample: in the PGlite repository a *successful* `claimLaunch`
does not bump `data.version` — for a fresh record with version 1 the claimed
record still has version 1, refuting "each successful claim operation
increases the persisted record's version field by exactly 1". -/
theorem c3_version_repo_claim_counterexample :
    ((repoClaimLaunch [({ id := "p" } : LaunchPack)] "p" 5 "ready" 9).1.map
        (fun r => r.version)) = some (some 1) ∧
    ((repoClaimLaunch [({ id := "p" } : LaunchPack)] "p" 5 "ready" 9).1.map
        (fun r => r.version)) ≠ some (some 2) := by
  constructor
  · rfl
  · decide

/-- C3 (amended). Every successful `update` and every successful in-memory
claim (`claimLaunch`, `claimTelegramPublish`, `claimXPublish`) increases the
persisted record's `version` by exactly 1 relative to the value read before
the mutation, and a failed claim (null result) leaves the store unchanged;
the PGlite repository's claim operations, however, leave `version` unchanged
(only its `update` bumps it, which `memUpdate` also models). -/
theorem c3_version_increment :
    (∀ (s : Store) (id : String) (f : LaunchPack → LaunchPack) (now : Int)
        (p r : LaunchPack) (s' : Store) (v : Nat),
      storeGet s id = some p → p.version = some v →
      memUpdate s id f now = some (r, s') →
      r.version = some (v + 1) ∧ storeGet s' id = some r) ∧
    (∀ (s : Store) (id : String) (p r : LaunchPack) (req now : Int) (status : String) (v : Nat),
      storeGet s id = some p → p.version = some v →
      (memClaimLaunch s id req status now).1 = some r →
      r.version = some (v + 1)) ∧
    (∀ (s : Store) (ch : Channel) (id : String) (p r : LaunchPack) (req now : Int)
        (force : Bool) (v : Nat),
      storeGet s id = some p → p.version = some v →
      (memClaimPublish s ch id req force now).1 = some r →
      r.version = some (v + 1)) ∧
    (∀ (s : Store) (id : String) (req now : Int) (status : String),
      (memClaimLaunch s id req status now).1 = none →
      (memClaimLaunch s id req status now).2 = s) ∧
    (∀ (s : Store) (ch : Channel) (id : String) (req now : Int) (force : Bool),
      (memClaimPublish s ch id req force now).1 = none →
      (memClaimPublish s ch id req force now).2 = s) ∧
    (∀ (s : Store) (id : String) (p r : LaunchPack) (req now : Int) (status : String),
      storeGet s id = some p →
      (repoClaimLaunch s id req status now).1 = some r →
      r.version = p.version) ∧
    (∀ (s : Store) (ch : Channel) (id : String) (p r : LaunchPack) (req now : Int)
        (force : Bool),
      storeGet s id = some p →
      (repoClaimPublish s ch id req force now).1 = some r →
      r.version = p.version) := by
  refine ⟨?upd, ?cl, ?cp, ?clf, ?cpf, ?rcl, ?rcp⟩
  case upd =>
    intro s id f now p r s' v h hv hm
    simp only [memUpdate, h] at hm
    simp only [Option.some.injEq, Prod.mk.injEq] at hm
    obtain ⟨hr, hs⟩ := hm
    subst hr
    subst hs
    refine ⟨by simp [hv], ?_⟩
    have := storeGet_storeSet_self s { f p with
      id := id, updated_at := some now, version := some ((p.version.getD 1) + 1) }
    simpa using this
  case cl =>
    intro s id p r req now status v h hv hr
    rcases memClaimLaunch_spec req now status h with ⟨heq, _⟩ | ⟨_, heq⟩
    · rw [heq] at hr
      exact absurd hr (by simp)
    · rw [heq] at hr
      simp only [Option.some.injEq] at hr
      subst hr
      simp [hv]
  case cp =>
    intro s ch id p r req now force v h hv hr
    rcases memClaimPublish_spec req now force h with ⟨heq, _⟩ | ⟨_, heq⟩
    · rw [heq] at hr
      exact absurd hr (by simp)
    · rw [heq] at hr
      simp only [Option.some.injEq] at hr
      subst hr
      simp [hv]
  case clf =>
    intro s id req now status hn
    cases hget : storeGet s id with
    | none => simp [memClaimLaunch, hget]
    | some p =>
      rcases memClaimLaunch_spec req now status hget with ⟨heq, _⟩ | ⟨_, heq⟩
      · rw [heq]
      · rw [heq] at hn
        exact absurd hn (by simp)
  case cpf =>
    intro s ch id req now force hn
    cases hget : storeGet s id with
    | none => simp [memClaimPublish, hget]
    | some p =>
      rcases memClaimPublish_spec req now force hget with ⟨heq, _⟩ | ⟨_, heq⟩
      · rw [heq]
      · rw [heq] at hn
        exact absurd hn (by simp)
  case rcl =>
    intro s id p r req now status h hr
    rcases repoClaimLaunch_spec req now status h with ⟨heq, _⟩ | ⟨_, heq⟩
    · rw [heq] at hr
      exact absurd hr (by simp)
    · rw [heq] at hr
      simp only [Option.some.injEq] at hr
      subst hr
      rfl
  case rcp =>
    intro s ch id p r req now force h hr
    rcases repoClaimPublish_spec req now force h with ⟨heq, _⟩ | ⟨_, heq⟩
    · rw [heq] at hr
      exact absurd hr (by simp)
    · rw [heq] at hr
      simp only [Option.some.injEq] at hr
      subst hr
      rfl

/-- C3 witness: a concrete `update` bumps version 1 to 2 and persists the
merged record. -/
theorem c3_version_increment_witness :
    ((memUpdate [({ id := "p" } : LaunchPack)] "p" (fun ex => ex) 3).map
      (fun rs => rs.1.version)) = some (some 2) := by
  cases hm : memUpdate [({ id := "p" } : LaunchPack)] "p" (fun ex => ex) 3 with
  | none => exact absurd hm (by simp [memUpdate, storeGet, List.find?])
  | some rs =>
    have := c3_version_increment.1 [({ id := "p" } : LaunchPack)] "p" (fun ex => ex) 3
      ({ id := "p" } : LaunchPack) rs.1 rs.2 1 rfl rfl (by rw [hm])
    simp [this.1]

/-! ## C4 — publish-claim conditions (corrected) -/

theorem claimPublishCond_iff (st : String) (failedAt : Option Int) (force : Bool) (now : Int)
    (hst : st = "idle" ∨ st = "in_progress" ∨ st = "published" ∨ st = "failed")
    (hrec : st = "failed" → ∃ t, failedAt = some t ∧ 0 < t) :
    ((¬(st = "published" ∨ st = "in_progress") ∧
        ¬(st = "failed" ∧ force = false ∧ memCooldownBlocked now failedAt)) ↔
      (st = "idle" ∨ (st = "failed" ∧ (force = true ∨
        ∀ t, failedAt = some t → PUBLISH_COOLDOWN_MS ≤ now - t)))) ∧
    ((st ≠ "published" ∧ st ≠ "in_progress" ∧
        (st = "idle" ∨ (st = "failed" ∧ (force = true ∨ repoCooldownOver now failedAt)))) ↔
      (st = "idle" ∨ (st = "failed" ∧ (force = true ∨
        ∀ t, failedAt = some t → PUBLISH_COOLDOWN_MS ≤ now - t)))) := by
  rcases hst with h | h | h | h
  · subst h
    constructor
    · simp [memCooldownBlocked]
    · simp
  · subst h
    constructor <;> simp
  · subst h
    constructor <;> simp
  · subst h
    obtain ⟨t, hfa, ht⟩ := hrec rfl
    subst hfa
    have hblocked : memCooldownBlocked now (some t) ↔ (t ≠ 0 ∧ now - t < PUBLISH_COOLDOWN_MS) :=
      Iff.rfl
    have hover : repoCooldownOver now (some t) ↔ t ≤ now - PUBLISH_COOLDOWN_MS := Iff.rfl
    have helapsed : (∀ u, (some t : Option Int) = some u → PUBLISH_COOLDOWN_MS ≤ now - u) ↔
        PUBLISH_COOLDOWN_MS ≤ now - t := by
      constructor
      · intro hu; exact hu t rfl
      · intro hu u hequ
        cases hequ
        exact hu
    constructor
    · simp only [hblocked, helapsed]
      constructor
      · rintro ⟨-, hnb⟩
        refine Or.inr ⟨by trivial, ?_⟩
        by_cases hf : force = true
        · exact Or.inl hf
        · right
          have hf0 : force = false := by
            cases force
            · rfl
            · exact absurd rfl hf
          by_contra hlt
          push_neg at hlt
          exact hnb ⟨by trivial, hf0, fun h0 => absurd h0 (by omega), by omega⟩
      · rintro (hidle | ⟨-, hforce | hel⟩)
        · exact absurd hidle (by decide)
        · constructor
          · simp
          · rintro ⟨-, hf0, -⟩
            rw [hforce] at hf0
            exact Bool.noConfusion hf0
        · constructor
          · simp
          · rintro ⟨-, -, -, hlt⟩
            omega
    · simp only [hover, helapsed]
      constructor
      · rintro ⟨-, -, hidle | ⟨-, hforce | hle⟩⟩
        · exact absurd hidle (by decide)
        · exact Or.inr ⟨by trivial, Or.inl hforce⟩
        · exact Or.inr ⟨by trivial, Or.inr (by omega)⟩
      · rintro (hidle | ⟨-, hforce | hel⟩)
        · exact absurd hidle (by decide)
        · exact ⟨by decide, by decide, Or.inr ⟨by trivial, Or.inl hforce⟩⟩
        · exact ⟨by decide, by decide, Or.inr ⟨by trivial, Or.inr (by omega)⟩⟩

/-- C4 counterexample: a *successful* repository publish claim (forced retry
from `failed`) leaves the prior `tg_publish_error_message` in place instead of
clearing it, refuting "clear the channel's prior error fields (both error code
and error message)". -/
theorem c4_publish_claim_counterexample :
    ((repoClaimPublish [tgFailedPackFixture] .tg "p" 5 true 9).1.map
        (fun r => r.ops.tg_publish_error_message)) = some (some "boom") ∧
    ((repoClaimPublish [tgFailedPackFixture] .tg "p" 5 true 9).1.map
        (fun r => r.ops.tg_publish_error_message)) ≠ some none := by
  constructor
  · rfl
  · decide

/-- C4 (amended). For a record whose channel status is one of the schema's
four values and whose `failed_at` is recorded (positive) when failed:
`claimTelegramPublish`/`claimXPublish` — in both the in-memory store and the
repository — succeed iff the status is `idle`, or it is `failed` and either
`force` is set or at least 10 minutes have elapsed since the recorded
`failed_at`; they never succeed from `published` or `in_progress`. On success
both set the status to `in_progress`, record `attempted_at` from the supplied
`requested_at` and clear the prior error code; the in-memory store also clears
the prior error message, while the repository leaves the stored error message
unchanged. -/
theorem c4_claimPublish_conditions :
    (∀ (s : Store) (ch : Channel) (id : String) (p : LaunchPack) (req now : Int) (force : Bool),
      storeGet s id = some p →
      ((publishStatus p ch).1 = "idle" ∨ (publishStatus p ch).1 = "in_progress" ∨
        (publishStatus p ch).1 = "published" ∨ (publishStatus p ch).1 = "failed") →
      ((publishStatus p ch).1 = "failed" → ∃ t, (publishStatus p ch).2 = some t ∧ 0 < t) →
      (((memClaimPublish s ch id req force now).1.isSome ↔
          ((publishStatus p ch).1 = "idle" ∨ ((publishStatus p ch).1 = "failed" ∧
            (force = true ∨ ∀ t, (publishStatus p ch).2 = some t →
              PUBLISH_COOLDOWN_MS ≤ now - t)))) ∧
        ((repoClaimPublish s ch id req force now).1.isSome ↔
          ((publishStatus p ch).1 = "idle" ∨ ((publishStatus p ch).1 = "failed" ∧
            (force = true ∨ ∀ t, (publishStatus p ch).2 = some t →
              PUBLISH_COOLDOWN_MS ≤ now - t)))))) ∧
    (∀ (s : Store) (ch : Channel) (id : String) (p r : LaunchPack) (req now : Int) (force : Bool),
      storeGet s id = some p →
      (memClaimPublish s ch id req force now).1 = some r →
      r.ops.pubStatus ch = some "in_progress" ∧ r.ops.pubAttemptedAt ch = some req ∧
      r.ops.pubErrorCode ch = none ∧ r.ops.pubErrorMessage ch = none) ∧
    (∀ (s : Store) (ch : Channel) (id : String) (p r : LaunchPack) (req now : Int) (force : Bool),
      storeGet s id = some p →
      (repoClaimPublish s ch id req force now).1 = some r →
      r.ops.pubStatus ch = some "in_progress" ∧ r.ops.pubAttemptedAt ch = some req ∧
      r.ops.pubErrorCode ch = none ∧
      r.ops.pubErrorMessage ch = p.ops.pubErrorMessage ch) := by
  refine ⟨?iffs, ?memEff, ?repoEff⟩
  case iffs =>
    intro s ch id p req now force h hst hrec
    have hiff := claimPublishCond_iff (publishStatus p ch).1 (publishStatus p ch).2 force now
      hst hrec
    constructor
    · rcases memClaimPublish_spec req now force h with ⟨heq, hn⟩ | ⟨hc, heq⟩ <;> rw [heq]
      · constructor
        · intro habs; simp at habs
        · intro hrhs; exact absurd (hiff.1.mpr hrhs) hn
      · simp only [Option.isSome_some, true_iff]
        exact hiff.1.mp hc
    · rcases repoClaimPublish_spec req now force h with ⟨heq, hn⟩ | ⟨hc, heq⟩ <;> rw [heq]
      · constructor
        · intro habs; simp at habs
        · intro hrhs; exact absurd (hiff.2.mpr hrhs) hn
      · simp only [Option.isSome_some, true_iff]
        exact hiff.2.mp hc
  case memEff =>
    intro s ch id p r req now force h hr
    rcases memClaimPublish_spec req now force h with ⟨heq, _⟩ | ⟨_, heq⟩ <;> rw [heq] at hr
    · exact absurd hr (by simp)
    · simp only [Option.some.injEq] at hr
      subst hr
      cases ch <;>
        simp [Ops.claimPublishFields, Ops.pubStatus, Ops.pubAttemptedAt, Ops.pubErrorCode,
          Ops.pubErrorMessage]
  case repoEff =>
    intro s ch id p r req now force h hr
    rcases repoClaimPublish_spec req now force h with ⟨heq, _⟩ | ⟨_, heq⟩ <;> rw [heq] at hr
    · exact absurd hr (by simp)
    · simp only [Option.some.injEq] at hr
      subst hr
      cases ch <;>
        simp [Ops.repoClaimPublishFields, Ops.pubStatus, Ops.pubAttemptedAt, Ops.pubErrorCode,
          Ops.pubErrorMessage]

/-- C4 witness: a concrete idle record is claimable in both implementations. -/
theorem c4_claimPublish_conditions_witness :
    (memClaimPublish [({ id := "p" } : LaunchPack)] .tg "p" 5 false 9).1.isSome ∧
    (repoClaimPublish [({ id := "p" } : LaunchPack)] .tg "p" 5 false 9).1.isSome := by
  have h := c4_claimPublish_conditions.1 [({ id := "p" } : LaunchPack)] .tg "p"
    ({ id := "p" } : LaunchPack) 5 9 false rfl (Or.inl rfl) (fun hf => absurd hf (by decide))
  exact ⟨h.1.mpr (Or.inl rfl), h.2.mpr (Or.inl rfl)⟩

/-! ## C5 — idempotent create -/

theorem storeSet_append {s : Store} {v : LaunchPack} (h : ∀ p ∈ s, p.id ≠ v.id) :
    storeSet s v = s ++ [v] := by
  induction s with
  | nil => rfl
  | cons q rest ih =>
    have hq : q.id ≠ v.id := h q (by simp)
    simp only [storeSet, if_neg hq, List.cons_append, List.cons.injEq, true_and]
    exact ih (fun p hp => h p (by simp [hp]))

/-- C5. `create` is idempotent under `idempotency_key`: when a stored record
already carries the input's key, both the in-memory store and the repository
return that record unchanged and write nothing; hence two creates with the
same key (regardless of the rest of the input, assuming a fresh id for the
first) yield the same stored record and the store holds exactly one record
with that key. -/
theorem c5_create_idempotent :
    (∀ (s : Store) (input : LaunchPack) (freshId : String) (now : Int) (key : String)
        (p : LaunchPack),
      input.idempotency_key = some key →
      s.find? (fun v => v.idempotency_key = some key) = some p →
      memCreate s input freshId now = (p, s) ∧ repoCreate s input freshId now = (p, s)) ∧
    (∀ (s : Store) (in1 in2 : LaunchPack) (f1 f2 : String) (n1 n2 : Int) (key : String),
      (∀ p ∈ s, p.idempotency_key ≠ some key) →
      (∀ p ∈ s, p.id ≠ (createRecord in1 f1 n1).id) →
      in1.idempotency_key = some key → in2.idempotency_key = some key →
      ((memCreate (memCreate s in1 f1 n1).2 in2 f2 n2).1 = (memCreate s in1 f1 n1).1 ∧
        (memCreate (memCreate s in1 f1 n1).2 in2 f2 n2).2 = (memCreate s in1 f1 n1).2 ∧
        (((memCreate s in1 f1 n1).2.filter
            (fun p => p.idempotency_key = some key)).length = 1))) := by
  constructor
  · intro s input freshId now key p hkey hfind
    constructor
    · simp only [memCreate, hkey, hfind]
    · simp only [repoCreate, hkey, hfind]
  · intro s in1 in2 f1 f2 n1 n2 key hnokey hnoid hk1 hk2
    have hfindnone : s.find? (fun v => v.idempotency_key = some key) = none := by
      rw [List.find?_eq_none]
      intro p hp
      simp only [decide_eq_true_eq]
      exact hnokey p hp
    have hpair : memCreate s in1 f1 n1 =
        (createRecord in1 f1 n1, storeSet s (createRecord in1 f1 n1)) := by
      simp only [memCreate, hk1, hfindnone]
    have happend : storeSet s (createRecord in1 f1 n1) = s ++ [createRecord in1 f1 n1] :=
      storeSet_append hnoid
    have hkeyrec : (createRecord in1 f1 n1).idempotency_key = some key := hk1
    have hfind2 : (s ++ [createRecord in1 f1 n1]).find?
        (fun v => v.idempotency_key = some key) = some (createRecord in1 f1 n1) := by
      rw [List.find?_append, hfindnone]
      simp [hkeyrec]
    have hsecond : memCreate (s ++ [createRecord in1 f1 n1]) in2 f2 n2 =
        (createRecord in1 f1 n1, s ++ [createRecord in1 f1 n1]) := by
      simp only [memCreate, hk2, hfind2]
    rw [hpair, happend]
    simp only [hsecond]
    refine ⟨by trivial, by trivial, ?_⟩
    rw [List.filter_append]
    have hnil : s.filter (fun p => p.idempotency_key = some key) = [] := by
      rw [List.filter_eq_nil_iff]
      intro p hp
      simp only [decide_eq_true_eq]
      exact hnokey p hp
    rw [hnil]
    simp [hkeyrec]

/-- C5 witness: two concrete creates with the same idempotency key on an empty
store agree and leave exactly one record for that key. -/
theorem c5_create_idempotent_witness :
    (memCreate (memCreate []
        ({ id := "", idempotency_key := some "same-key-1" } : LaunchPack) "a" 1).2
      ({ id := "", idempotency_key := some "same-key-1" } : LaunchPack) "b" 2).1 =
      (memCreate [] ({ id := "", idempotency_key := some "same-key-1" } : LaunchPack) "a" 1).1 ∧
    (memCreate (memCreate []
        ({ id := "", idempotency_key := some "same-key-1" } : LaunchPack) "a" 1).2
      ({ id := "", idempotency_key := some "same-key-1" } : LaunchPack) "b" 2).2 =
      (memCreate [] ({ id := "", idempotency_key := some "same-key-1" } : LaunchPack) "a" 1).2 ∧
    ((memCreate [] ({ id := "", idempotency_key := some "same-key-1" } : LaunchPack) "a" 1).2.filter
        (fun p => p.idempotency_key = some "same-key-1")).length = 1 :=
  c5_create_idempotent.2 [] ({ id := "", idempotency_key := some "same-key-1" } : LaunchPack)
    ({ id := "", idempotency_key := some "same-key-1" } : LaunchPack) "a" "b" 1 2 "same-key-1"
    (by simp) (by simp) rfl rfl

/-! ## C7 / C10 — deepMerge semantics -/

theorem jLookup_jAssign_self (kvs : List (String × JVal)) (k : String) (v : JVal) :
    jLookup (jAssign kvs k v) k = some v := by
  induction kvs with
  | nil => simp [jAssign, jLookup]
  | cons kv rest ih =>
    obtain ⟨k1, v1⟩ := kv
    by_cases h1 : k1 = k
    · simp [jAssign, h1, jLookup]
    · simp only [jAssign, if_neg h1, jLookup]
      exact ih

theorem jLookup_jAssign_ne (kvs : List (String × JVal)) (k : String) (v : JVal) (q : String)
    (h : q ≠ k) :
    jLookup (jAssign kvs k v) q = jLookup kvs q := by
  induction kvs with
  | nil =>
    simp only [jAssign, jLookup]
    rw [if_neg (fun hk => h hk.symm)]
  | cons kv rest ih =>
    obtain ⟨k1, v1⟩ := kv
    by_cases h1 : k1 = k
    · simp only [jAssign, if_pos h1, jLookup]
      rw [if_neg (fun hk => h hk.symm), if_neg (by rw [h1]; exact fun hk => h hk.symm)]
    · simp only [jAssign, if_neg h1, jLookup]
      by_cases h2 : k1 = q
      · rw [if_pos h2, if_pos h2]
      · rw [if_neg h2, if_neg h2]
        exact ih

theorem jLookup_mergeEntries_not_mem (bkvs acc pkvs : List (String × JVal)) (q : String)
    (h : ∀ kv ∈ pkvs, kv.1 ≠ q) :
    jLookup (mergeEntries bkvs acc pkvs) q = jLookup acc q := by
  induction pkvs generalizing acc with
  | nil => rfl
  | cons kv rest ih =>
    obtain ⟨k1, pv1⟩ := kv
    simp only [mergeEntries]
    rw [ih _ (fun p hp => h p (by simp [hp]))]
    exact jLookup_jAssign_ne acc k1 _ q (fun hq => h (k1, pv1) (by simp) hq.symm)

theorem jLookup_mergeEntries_mem (bkvs acc pkvs : List (String × JVal)) (q : String) (pv : JVal)
    (hnd : (pkvs.map Prod.fst).Nodup) (h : jLookup pkvs q = some pv) :
    jLookup (mergeEntries bkvs acc pkvs) q =
      some (deepMerge ((jLookup bkvs q).getD .undef) pv) := by
  induction pkvs generalizing acc with
  | nil => simp [jLookup] at h
  | cons kv rest ih =>
    obtain ⟨k1, pv1⟩ := kv
    simp only [jLookup] at h
    simp only [List.map_cons, List.nodup_cons] at hnd
    simp only [mergeEntries]
    by_cases h1 : k1 = q
    · rw [if_pos h1] at h
      obtain rfl : pv1 = pv := by injection h
      subst h1
      rw [jLookup_mergeEntries_not_mem bkvs _ rest k1 ?hne]
      · exact jLookup_jAssign_self acc k1 _
      case hne =>
        intro p hp hpq
        exact hnd.1 (hpq ▸ List.mem_map_of_mem Prod.fst hp)
    · rw [if_neg h1] at h
      exact ih _ hnd.2 h

/-- C7. `deepMerge` — the merge `update(id, patch)` applies to the stored
record and the validated patch — replaces wholesale on array and scalar
patch values, merges objects key by key
(`merged[k] = deepMerge(base[k], patch[k])`, for patches without duplicate
keys), and every key of the stored object not mentioned in the patch is
present and unchanged in the merged result. -/
theorem c7_deep_merge_frame :
    (∀ (b : JVal) (xs : List JVal), deepMerge b (.arr xs) = .arr xs) ∧
    (∀ (b : JVal) (n : Int), deepMerge b (.num n) = .num n) ∧
    (∀ (b : JVal) (s : String), deepMerge b (.str s) = .str s) ∧
    (∀ (b : JVal) (bo : Bool), deepMerge b (.bool bo) = .bool bo) ∧
    (∀ (bkvs pkvs : List (String × JVal)) (k : String) (pv : JVal),
      (pkvs.map Prod.fst).Nodup → jLookup pkvs k = some pv →
      JVal.lookupKey (deepMerge (.obj bkvs) (.obj pkvs)) k =
        some (deepMerge ((jLookup bkvs k).getD .undef) pv)) ∧
    (∀ (bkvs pkvs : List (String × JVal)) (k : String) (v : JVal),
      (∀ kv ∈ pkvs, kv.1 ≠ k) → jLookup bkvs k = some v →
      JVal.lookupKey (deepMerge (.obj bkvs) (.obj pkvs)) k = some v) := by
  refine ⟨fun b xs => rfl, fun b n => rfl, fun b s => rfl, fun b bo => rfl, ?mem, ?frame⟩
  case mem =>
    intro bkvs pkvs k pv hnd h
    exact jLookup_mergeEntries_mem bkvs bkvs pkvs k pv hnd h
  case frame =>
    intro bkvs pkvs k v hne hv
    have hme : jLookup (mergeEntries bkvs bkvs pkvs) k = jLookup bkvs k :=
      jLookup_mergeEntries_not_mem bkvs bkvs pkvs k hne
    exact hme.trans hv

/-- C7 witness: a concrete two-key merge — the patched key is replaced, the
sibling key survives, and an array patch replaces wholesale. -/
theorem c7_deep_merge_frame_witness :
    JVal.lookupKey (deepMerge (.obj [("a", .num 1), ("c", .num 3)])
      (.obj [("b", .num 2), ("c", .num 4)])) "c" = some (.num 4) ∧
    JVal.lookupKey (deepMerge (.obj [("a", .num 1), ("c", .num 3)])
      (.obj [("b", .num 2), ("c", .num 4)])) "a" = some (.num 1) ∧
    deepMerge (.num 7) (.arr [.num 2]) = .arr [.num 2] := by
  refine ⟨?_, ?_, c7_deep_merge_frame.1 (.num 7) [.num 2]⟩
  · exact (c7_deep_merge_frame.2.2.2.2.1 [("a", .num 1), ("c", .num 3)]
      [("b", .num 2), ("c", .num 4)] "c" (.num 4) (by decide) rfl).trans rfl
  · refine c7_deep_merge_frame.2.2.2.2.2 [("a", .num 1), ("c", .num 3)]
      [("b", .num 2), ("c", .num 4)] "a" (.num 1) ?_ rfl
    intro kv hkv
    simp only [List.mem_cons, List.not_mem_nil, or_false] at hkv
    rcases hkv with rfl | rfl <;> decide

/-- C10. `deepMerge(b, null) = b` and `deepMerge(b, undefined) = b`: a patch
field explicitly set to `null` leaves the stored value intact — in particular
the `*_publish_error_code: null` entries of the publishers' success-path
update leave any previously stored value unchanged under the in-memory
merge. -/
theorem c10_null_patch_keeps_base :
    (∀ b : JVal, deepMerge b .null = b) ∧
    (∀ b : JVal, deepMerge b .undef = b) ∧
    (∀ (bkvs pkvs : List (String × JVal)) (k : String) (v : JVal),
      (pkvs.map Prod.fst).Nodup → jLookup pkvs k = some .null →
      jLookup bkvs k = some v →
      JVal.lookupKey (deepMerge (.obj bkvs) (.obj pkvs)) k = some v) := by
  refine ⟨fun b => rfl, fun b => rfl, ?nullkey⟩
  case nullkey =>
    intro bkvs pkvs k v hnd hp hv
    have := jLookup_mergeEntries_mem bkvs bkvs pkvs k .null hnd hp
    rw [hv] at this
    exact this

/-- C10 witness: the publishers' success patch shape — an error-code field set
to `null` in the patch leaves the stored error code in place. -/
theorem c10_null_patch_keeps_base_witness :
    JVal.lookupKey (deepMerge
        (.obj [("tg_publish_error_code", .str "TG_PUBLISH_FAILED")])
        (.obj [("tg_publish_status", .str "published"), ("tg_publish_error_code", .null)]))
      "tg_publish_error_code" = some (.str "TG_PUBLISH_FAILED") ∧
    deepMerge (.str "TG_PUBLISH_FAILED") .null = .str "TG_PUBLISH_FAILED" :=
  ⟨c10_null_patch_keeps_base.2.2 [("tg_publish_error_code", .str "TG_PUBLISH_FAILED")]
      [("tg_publish_status", .str "published"), ("tg_publish_error_code", .null)]
      "tg_publish_error_code" (.str "TG_PUBLISH_FAILED") (by decide) rfl rfl,
    c10_null_patch_keeps_base.1 (.str "TG_PUBLISH_FAILED")⟩

/-! ## C6 — publish idempotence after success -/

/-- C6. For every LaunchPack whose channel publish status is `"published"`
with `published_at` set (and the channel enabled, configured, and its
readiness flag on), a publish call without `force` returns the stored record
unchanged — hence with the same persisted result ids — makes zero remote
calls, and leaves the store untouched. -/
theorem c6_publish_idempotent_after_success :
    (∀ (env : TgEnv) (s : Store) (id : String) (p : LaunchPack) (oracle : Nat → TgApiResult)
        (now : Int),
      env.enabled = true → env.botToken.isSome → env.chatId.isSome →
      storeGet s id = some p →
      checklistGet p.ops.checklist "tg_ready" = true →
      p.ops.tg_published_at.isSome → p.ops.tg_publish_status = some "published" →
      tgPublish env s id false oracle now = (.ok p, s, 0)) ∧
    (∀ (env : XEnv) (s : Store) (id : String) (p : LaunchPack) (oracle : Nat → Option String)
        (now : Int),
      env.enabled = true → env.apiKey.isSome → env.apiSecret.isSome →
      env.accessToken.isSome → env.accessSecret.isSome →
      storeGet s id = some p →
      checklistGet p.ops.checklist "x_ready" = true →
      p.ops.x_published_at.isSome → p.ops.x_publish_status = some "published" →
      xPublish env s id false oracle now = (.ok p, s, 0)) := by
  constructor
  · intro env s id p oracle now hen htok hchat hget hready hpubat hpubst
    have htok' : env.botToken ≠ none := Option.isSome_iff_ne_none.mp htok
    have hchat' : env.chatId ≠ none := Option.isSome_iff_ne_none.mp hchat
    simp only [tgPublish, hen, hget]
    rw [if_neg (by simp), if_neg (by simp [htok', hchat']), if_neg (by simp [hready]),
      if_pos ⟨hpubat, hpubst, by trivial⟩]
  · intro env s id p oracle now hen h1 h2 h3 h4 hget hready hpubat hpubst
    have h1' : env.apiKey ≠ none := Option.isSome_iff_ne_none.mp h1
    have h2' : env.apiSecret ≠ none := Option.isSome_iff_ne_none.mp h2
    have h3' : env.accessToken ≠ none := Option.isSome_iff_ne_none.mp h3
    have h4' : env.accessSecret ≠ none := Option.isSome_iff_ne_none.mp h4
    simp only [xPublish, hen, hget]
    rw [if_neg (by simp), if_neg (by simp [h1', h2', h3', h4']), if_neg (by simp [hready]),
      if_pos ⟨hpubat, hpubst, by trivial⟩]

/-- C6 witness: a concrete published record is returned as-is with zero
remote calls on both channels — under an oracle that would fail every remote
call if one were made. -/
theorem c6_publish_idempotent_after_success_witness :
    tgPublish ⟨true, some "t", some "c"⟩ [publishedPackFixture] "p" false
        (fun _ => .fail) 99 = (.ok publishedPackFixture, [publishedPackFixture], 0) ∧
    xPublish ⟨true, some "k", some "s", some "a", some "b"⟩ [publishedPackFixture] "p" false
        (fun _ => none) 99 = (.ok publishedPackFixture, [publishedPackFixture], 0) :=
  ⟨c6_publish_idempotent_after_success.1 ⟨true, some "t", some "c"⟩ [publishedPackFixture]
      "p" publishedPackFixture (fun _ => .fail) 99 rfl rfl rfl rfl rfl rfl rfl,
    c6_publish_idempotent_after_success.2 ⟨true, some "k", some "s", some "a", some "b"⟩
      [publishedPackFixture] "p" publishedPackFixture (fun _ => none) 99
      rfl rfl rfl rfl rfl rfl rfl rfl rfl⟩

/-! ## C8 — due-publish scans (corrected) -/

/-- C8 counterexample: the in-memory scan returns matches in store insertion
order, not ordered by last-updated ascending — a store holding a later-updated
due record before an earlier-updated one comes back as [100, 50]. -/
theorem c8_find_due_order_counterexample :
    ((memFindDue [duePackLate, duePackEarly] .tg 1000 5).map
        (fun p => p.updated_at.getD 0)) = [100, 50] ∧
    ¬ List.Sorted (fun a b => a ≤ b)
      ((memFindDue [duePackLate, duePackEarly] .tg 1000 5).map
        (fun p => p.updated_at.getD 0)) := by
  constructor
  · rfl
  · intro h
    have : (100 : Int) ≤ 50 := by
      have hmap : ((memFindDue [duePackLate, duePackEarly] .tg 1000 5).map
          (fun p => p.updated_at.getD 0)) = [100, 50] := rfl
      rw [hmap] at h
      exact List.rel_of_sorted_cons h 50 (by simp)
    omega

/-- C8 (amended). The repository scans return exactly the stored LaunchPacks
whose channel status is neither `in_progress` nor `published` and whose
recorded schedule intent (falling back to the channel content schedule) has an
entry with `when ≤ now` — ordered by last-updated ascending, with at most
`limit` results (all matches when they fit within `limit`). The in-memory
scans apply the same status filter but consult the channel content schedule
and return the first `limit` matches in store insertion order (a sublist of
the store), unsorted. Neither scan mutates any record (both are pure reads by
construction). -/
theorem c8_find_due_scan :
    (∀ (s : Store) (ch : Channel) (now : Int) (limit : Nat),
      (∀ p ∈ repoFindDue s ch now limit, p ∈ s ∧ repoDue now ch p = true) ∧
      List.Sorted updatedLe (repoFindDue s ch now limit) ∧
      (repoFindDue s ch now limit).length ≤ limit ∧
      ((s.filter (repoDue now ch)).length ≤ limit →
        ∀ p ∈ s, repoDue now ch p = true → p ∈ repoFindDue s ch now limit)) ∧
    (∀ (s : Store) (ch : Channel) (now : Int) (limit : Nat),
      (∀ p ∈ memFindDue s ch now limit, p ∈ s ∧ memDue now ch p = true) ∧
      List.Sublist (memFindDue s ch now limit) s ∧
      (memFindDue s ch now limit).length ≤ limit ∧
      ((s.filter (memDue now ch)).length ≤ limit →
        ∀ p ∈ s, memDue now ch p = true → p ∈ memFindDue s ch now limit)) := by
  constructor
  · intro s ch now limit
    refine ⟨?sound, ?sorted, ?len, ?complete⟩
    case sound =>
      intro p hp
      have hmem : p ∈ List.insertionSort updatedLe (s.filter (repoDue now ch)) :=
        List.mem_of_mem_take hp
      have hfil : p ∈ s.filter (repoDue now ch) :=
        (List.perm_insertionSort updatedLe (s.filter (repoDue now ch))).mem_iff.mp hmem
      exact ⟨(List.mem_filter.mp hfil).1, (List.mem_filter.mp hfil).2⟩
    case sorted =>
      exact List.Pairwise.sublist (List.take_sublist limit _)
        (List.sorted_insertionSort updatedLe (s.filter (repoDue now ch)))
    case len =>
      rw [repoFindDue, List.length_take]
      exact min_le_left _ _
    case complete =>
      intro hlen p hps hdue
      have hlen2 : (List.insertionSort updatedLe (s.filter (repoDue now ch))).length ≤ limit := by
        rw [(List.perm_insertionSort updatedLe (s.filter (repoDue now ch))).length_eq]
        exact hlen
      rw [repoFindDue, List.take_of_length_le hlen2]
      exact (List.perm_insertionSort updatedLe (s.filter (repoDue now ch))).mem_iff.mpr
        (List.mem_filter.mpr ⟨hps, hdue⟩)
  · intro s ch now limit
    refine ⟨?sound, ?sub, ?len, ?complete⟩
    case sound =>
      intro p hp
      have hfil : p ∈ s.filter (memDue now ch) := List.mem_of_mem_take hp
      exact ⟨(List.mem_filter.mp hfil).1, (List.mem_filter.mp hfil).2⟩
    case sub =>
      exact List.Sublist.trans (List.take_sublist limit _) (List.filter_sublist s)
    case len =>
      rw [memFindDue, List.length_take]
      exact min_le_left _ _
    case complete =>
      intro hlen p hps hdue
      rw [memFindDue, List.take_of_length_le hlen]
      exact List.mem_filter.mpr ⟨hps, hdue⟩

/-- C8 witness: a concrete due record is returned by both scans. -/
theorem c8_find_due_scan_witness :
    duePackEarly ∈ repoFindDue [duePackEarly] .tg 1000 5 ∧
    duePackEarly ∈ memFindDue [duePackEarly] .x 1000 5 :=
  ⟨(c8_find_due_scan.1 [duePackEarly] .tg 1000 5).2.2.2 (by decide) duePackEarly (by simp) rfl,
    (c8_find_due_scan.2 [duePackEarly] .x 1000 5).2.2.2 (by decide) duePackEarly (by simp) rfl⟩

/-! ## C9 — wallet provisioning (corrected) -/

/-- C9 counterexample: the connect timeout applied to the wallet-issuance
fetch is `LOGO_FETCH_CONNECT_TIMEOUT_MS = 10000` milliseconds, not the
claimed 8 seconds. -/
theorem c9_connect_timeout_counterexample :
    LOGO_FETCH_CONNECT_TIMEOUT_MS = 10000 ∧ walletFetchTimeouts.2 ≠ 8000 :=
  ⟨rfl, by decide⟩

/-- C9 (amended). When no cached wallet is present, the launch orchestrator
requests a wallet from the external wallet-issuance endpoint under a
10-second connect timeout and a 20-second total timeout (the
`fetchWithTimeout` defaults), then rejects the response unless it contains
the required fields — `apiKey`, a wallet under `wallet`/`publicKey`/`address`,
a secret under one of its four accepted names — naming every missing key in
the error detail, and a secret that base58-decodes to exactly 64 bytes. -/
theorem c9_wallet_provisioning :
    walletFetchTimeouts = (20000, 10000) ∧
    (∀ (resOk : Bool) (st : Nat) (body : Option WalletBody) (dl : String → Option Nat),
      ensureLauncherWallet none resOk st body dl = walletFromResponse resOk st body dl) ∧
    (∀ (st : Nat) (b : WalletBody) (dl : String → Option Nat) (r : WalletRecord),
      walletFromResponse true st (some b) dl = .ok r → dl r.walletSecret = some 64) ∧
    (∀ (st : Nat) (b : WalletBody) (dl : String → Option Nat),
      (b.apiKey = none ∨
        b.wallet.orElse (fun _ => b.publicKey.orElse (fun _ => b.address)) = none ∨
        b.privateKey.orElse (fun _ => b.secretKey.orElse
          (fun _ => b.walletSecret.orElse (fun _ => b.private_key))) = none) →
      ∃ e, walletFromResponse true st (some b) dl = .error e ∧
        e.code = "INVALID_WALLET_RESPONSE" ∧
        (b.apiKey = none → "apiKey" ∈ e.missingKeys) ∧
        (b.wallet.orElse (fun _ => b.publicKey.orElse (fun _ => b.address)) = none →
          "wallet" ∈ e.missingKeys) ∧
        (b.privateKey.orElse (fun _ => b.secretKey.orElse
            (fun _ => b.walletSecret.orElse (fun _ => b.private_key))) = none →
          "walletSecret" ∈ e.missingKeys)) ∧
    (∀ (st : Nat) (b : WalletBody) (dl : String → Option Nat) (a w sec : String),
      b.apiKey = some a →
      b.wallet.orElse (fun _ => b.publicKey.orElse (fun _ => b.address)) = some w →
      b.privateKey.orElse (fun _ => b.secretKey.orElse
        (fun _ => b.walletSecret.orElse (fun _ => b.private_key))) = some sec →
      ((dl sec = some 64 → walletFromResponse true st (some b) dl = .ok ⟨a, w, sec⟩) ∧
        (∀ n, dl sec = some n → n ≠ 64 →
          ∃ e, walletFromResponse true st (some b) dl = .error e ∧
            e.code = "WALLET_SECRET_INVALID") ∧
        (dl sec = none →
          ∃ e, walletFromResponse true st (some b) dl = .error e ∧
            e.code = "WALLET_SECRET_INVALID"))) := by
  refine ⟨rfl, fun _ _ _ _ => rfl, ?decode, ?missing, ?resolved⟩
  case decode =>
    intro st b dl r hok
    rcases hA : b.apiKey with _ | a
    · simp [walletFromResponse, hA] at hok
    · rcases hW : b.wallet.orElse (fun _ => b.publicKey.orElse (fun _ => b.address)) with _ | w
      · simp [walletFromResponse, hA, hW] at hok
      · rcases hS : b.privateKey.orElse (fun _ => b.secretKey.orElse
            (fun _ => b.walletSecret.orElse (fun _ => b.private_key))) with _ | sec
        · simp [walletFromResponse, hA, hW, hS] at hok
        · rcases hD : dl sec with _ | n
          · simp [walletFromResponse, hA, hW, hS, hD] at hok
          · by_cases hn : n = 64
            · subst hn
              simp [walletFromResponse, hA, hW, hS, hD] at hok
              rw [← hok]
              exact hD
            · simp [walletFromResponse, hA, hW, hS, hD, hn] at hok
  case missing =>
    intro st b dl hmiss
    have heq : walletFromResponse true st (some b) dl =
        .error ⟨"INVALID_WALLET_RESPONSE", "Invalid wallet response",
          (if b.apiKey = none then ["apiKey"] else []) ++
          (if b.wallet.orElse (fun _ => b.publicKey.orElse (fun _ => b.address)) = none then
            ["wallet"] else []) ++
          (if b.privateKey.orElse (fun _ => b.secretKey.orElse
              (fun _ => b.walletSecret.orElse (fun _ => b.private_key))) = none then
            ["walletSecret"] else [])⟩ := by
      rcases hA : b.apiKey with _ | a
      · simp [walletFromResponse, hA]
      · rcases hW : b.wallet.orElse (fun _ => b.publicKey.orElse (fun _ => b.address)) with _ | w
        · simp [walletFromResponse, hA, hW]
        · rcases hS : b.privateKey.orElse (fun _ => b.secretKey.orElse
              (fun _ => b.walletSecret.orElse (fun _ => b.private_key))) with _ | sec
          · simp [walletFromResponse, hA, hW, hS]
          · exfalso
            rcases hmiss with hm | hm | hm
            · rw [hA] at hm
              exact Option.noConfusion hm
            · rw [hW] at hm
              exact Option.noConfusion hm
            · rw [hS] at hm
              exact Option.noConfusion hm
    refine ⟨_, heq, rfl, ?_, ?_, ?_⟩
    · intro h
      simp [h]
    · intro h
      simp [h]
    · intro h
      simp [h]
  case resolved =>
    intro st b dl a w sec ha hw hs
    refine ⟨?ok, ?badlen, ?nodecode⟩
    case ok =>
      intro h64
      simp [walletFromResponse, ha, hw, hs, h64]
    case badlen =>
      intro n hn hne
      refine ⟨⟨"WALLET_SECRET_INVALID", "Wallet secret must decode to 64 bytes", []⟩, ?_, rfl⟩
      simp [walletFromResponse, ha, hw, hs, hn, hne]
    case nodecode =>
      intro hnone
      refine ⟨⟨"WALLET_SECRET_INVALID", "Wallet secret is not valid base58", []⟩, ?_, rfl⟩
      simp [walletFromResponse, ha, hw, hs, hnone]


/-- C9 witness: a concrete well-formed response (alternate field names) is
accepted; a response missing wallet and secret is rejected naming both. -/
theorem c9_wallet_provisioning_witness :
    walletFromResponse true 200 (some walletBodyOkFixture) (fun _ => some 64) =
      .ok ⟨"k", "pub", "sec"⟩ ∧
    ∃ e, walletFromResponse true 200 (some ({ apiKey := some "k" } : WalletBody))
        (fun _ => some 64) = .error e ∧ e.code = "INVALID_WALLET_RESPONSE" ∧
      "wallet" ∈ e.missingKeys ∧ "walletSecret" ∈ e.missingKeys := by
  constructor
  · exact (c9_wallet_provisioning.2.2.2.2 200 walletBodyOkFixture (fun _ => some 64)
      "k" "pub" "sec" rfl rfl rfl).1 rfl
  · obtain ⟨e, he, hcode, hak, hwal, hsec⟩ := c9_wallet_provisioning.2.2.2.1 200
      ({ apiKey := some "k" } : WalletBody) (fun _ => some 64) (Or.inr (Or.inl rfl))
    exact ⟨e, he, hcode, hwal rfl, hsec rfl⟩

/-! ## C2 — orchestrator failure handling (corrected) -/

theorem memClaimLaunch_some_get {s : Store} {id : String} {p : LaunchPack} {req now : Int}
    {status : String} {claim : LaunchPack} {s1 : Store}
    (h : storeGet s id = some p)
    (hclaim : memClaimLaunch s id req status now = (some claim, s1)) :
    storeGet s1 id = some claim ∧ claim.ops = p.ops := by
  rcases memClaimLaunch_spec req now status h with ⟨heq, _⟩ | ⟨_, heq⟩ <;> rw [heq] at hclaim
  · exact absurd hclaim (by simp)
  · simp only [Prod.mk.injEq, Option.some.injEq] at hclaim
    obtain ⟨hc, hs⟩ := hclaim
    subst hc
    subst hs
    have hid : p.id = id := storeGet_some_id h
    refine ⟨?_, rfl⟩
    have := storeGet_storeSet_self s { p with
      launch := { p.launch with requested_at := some req, status := status },
      updated_at := some now,
      version := some ((p.version.getD 1) + 1) }
    simpa [hid] using this

theorem memClaimPublish_some_get {s : Store} {ch : Channel} {id : String} {p : LaunchPack}
    {req now : Int} {force : Bool} {claim : LaunchPack} {s1 : Store}
    (h : storeGet s id = some p)
    (hclaim : memClaimPublish s ch id req force now = (some claim, s1)) :
    storeGet s1 id = some claim ∧ claim.ops = p.ops.claimPublishFields ch req ∧
      claim.tg = p.tg ∧ claim.x = p.x := by
  rcases memClaimPublish_spec req now force h with ⟨heq, _⟩ | ⟨_, heq⟩ <;> rw [heq] at hclaim
  · exact absurd hclaim (by simp)
  · simp only [Prod.mk.injEq, Option.some.injEq] at hclaim
    obtain ⟨hc, hs⟩ := hclaim
    subst hc
    subst hs
    have hid : p.id = id := storeGet_some_id h
    refine ⟨?_, rfl, rfl, rfl⟩
    have := storeGet_storeSet_self s { p with
      ops := p.ops.claimPublishFields ch req,
      updated_at := some now,
      version := some ((p.version.getD 1) + 1) }
    simpa [hid] using this

/-- C2 counterexample: a concrete Telegram publish whose first send fails
persists the terminal `failed` state with the failing code, but appends no
audit entry — the audit log stays empty — refuting "appends an audit entry
before re-raising the error" for the publishers. -/
theorem c2_publish_failure_audit_counterexample :
    (tgPublish ⟨true, some "t", some "c"⟩ [tgReadyPackFixture] "p" false
        (fun _ => .fail) 7).1 =
      .error ⟨"TG_PUBLISH_FAILED", "Telegram sendMessage failed", []⟩ ∧
    ((storeGet (tgPublish ⟨true, some "t", some "c"⟩ [tgReadyPackFixture] "p" false
        (fun _ => .fail) 7).2.1 "p").map
      (fun r => (r.ops.tg_publish_status, r.ops.audit_log.length))) =
      some (some "failed", 0) := by
  constructor
  · rfl
  · rfl

/-- C2 (amended). After a successful claim, any step failure is caught and the
terminal `failed` state persisted with the failing error code and message
before the error is re-raised, so the claimed slot always ends terminal
(`failed` on failure, `launched`/`published` on success); the launch
orchestrator additionally appends an audit entry on failure, while the
Telegram/X publishers leave the audit log untouched on failure. Validation and
precondition errors raised before the claim (feature disabled, lost claim,
launch gates) leave the stored record unchanged. -/
theorem c2_orchestrator_failure_handling :
    (∀ (env : LaunchEnv) (s : Store) (id : String) (force : Bool)
        (wStep : Except ErrInfo WalletRecord) (uStep : Except ErrInfo String)
        (tStep : Except ErrInfo TradeResult) (now : Int) (p claim : LaunchPack) (s1 : Store)
        (e : ErrInfo) (slip : Int),
      storeGet s id = some p →
      p.launch.status ≠ "launched" →
      ensureLaunchAllowed env p force now = none →
      enforceCaps env = none →
      resolveSlippage env = .ok slip →
      memClaimLaunch s id now "ready" now = (some claim, s1) →
      launchSteps wStep uStep tStep = .error e →
      ∃ r, pumpLaunch env s id force wStep uStep tStep now = (.error e, storeSet s1 r) ∧
        storeGet (storeSet s1 r) id = some r ∧
        r.launch.status = "failed" ∧
        r.launch.error_code = some (if e.code = "" then "LAUNCH_FAILED" else e.code) ∧
        r.launch.error_message = some e.message ∧
        r.ops.audit_log =
          claim.ops.audit_log ++ [⟨now, "Launch failed: " ++ e.message, "eliza"⟩]) ∧
    (∀ (env : LaunchEnv) (s : Store) (id : String) (force : Bool)
        (wStep : Except ErrInfo WalletRecord) (uStep : Except ErrInfo String)
        (tStep : Except ErrInfo TradeResult) (now : Int) (p claim : LaunchPack) (s1 : Store)
        (tr : TradeResult) (slip : Int),
      storeGet s id = some p →
      p.launch.status ≠ "launched" →
      ensureLaunchAllowed env p force now = none →
      enforceCaps env = none →
      resolveSlippage env = .ok slip →
      memClaimLaunch s id now "ready" now = (some claim, s1) →
      launchSteps wStep uStep tStep = .ok tr →
      ∃ r, pumpLaunch env s id force wStep uStep tStep now = (.ok r, storeSet s1 r) ∧
        storeGet (storeSet s1 r) id = some r ∧
        r.launch.status = "launched" ∧
        r.ops.audit_log =
          claim.ops.audit_log ++ [⟨now, "Pump launch complete", "eliza"⟩]) ∧
    (∀ (env : LaunchEnv) (s : Store) (id : String) (force : Bool)
        (wStep : Except ErrInfo WalletRecord) (uStep : Except ErrInfo String)
        (tStep : Except ErrInfo TradeResult) (now : Int) (p : LaunchPack) (e : ErrInfo),
      storeGet s id = some p →
      p.launch.status ≠ "launched" →
      ensureLaunchAllowed env p force now = some e →
      pumpLaunch env s id force wStep uStep tStep now = (.error e, s)) ∧
    (∀ (env : LaunchEnv) (s : Store) (id : String) (force : Bool)
        (wStep : Except ErrInfo WalletRecord) (uStep : Except ErrInfo String)
        (tStep : Except ErrInfo TradeResult) (now : Int) (p : LaunchPack) (slip : Int),
      storeGet s id = some p →
      p.launch.status ≠ "launched" →
      ensureLaunchAllowed env p force now = none →
      enforceCaps env = none →
      resolveSlippage env = .ok slip →
      (memClaimLaunch s id now "ready" now).1 = none →
      pumpLaunch env s id force wStep uStep tStep now =
        (.error ⟨"LAUNCH_IN_PROGRESS", "Launch in progress", []⟩, s)) ∧
    (∀ (env : TgEnv) (s : Store) (id : String) (force : Bool) (oracle : Nat → TgApiResult)
        (now : Int) (p claim : LaunchPack) (s1 : Store) (e : ErrInfo) (k : Nat),
      env.enabled = true → env.botToken ≠ none → env.chatId ≠ none →
      storeGet s id = some p →
      checklistGet p.ops.checklist "tg_ready" = true →
      ¬(p.ops.tg_published_at.isSome ∧ p.ops.tg_publish_status = some "published" ∧
        force = false) →
      memClaimPublish s .tg id now force now = (some claim, s1) →
      tgRunPins oracle claim.tg.pins = (.error e, k) →
      ∃ r, tgPublish env s id force oracle now = (.error e, storeSet s1 r, k) ∧
        storeGet (storeSet s1 r) id = some r ∧
        r.ops.tg_publish_status = some "failed" ∧
        r.ops.tg_publish_failed_at = some now ∧
        r.ops.tg_publish_error_code =
          some (if e.code = "" then "TG_PUBLISH_FAILED" else e.code) ∧
        r.ops.tg_publish_error_message = some e.message ∧
        r.ops.audit_log = claim.ops.audit_log) ∧
    (∀ (env : XEnv) (s : Store) (id : String) (force : Bool) (oracle : Nat → Option String)
        (now : Int) (p claim : LaunchPack) (s1 : Store) (e : ErrInfo) (k : Nat),
      env.enabled = true → env.apiKey ≠ none → env.apiSecret ≠ none →
      env.accessToken ≠ none → env.accessSecret ≠ none →
      storeGet s id = some p →
      checklistGet p.ops.checklist "x_ready" = true →
      ¬(p.ops.x_published_at.isSome ∧ p.ops.x_publish_status = some "published" ∧
        force = false) →
      memClaimPublish s .x id now force now = (some claim, s1) →
      xRunPosts oracle claim.x.main_post claim.x.thread = (.error e, k) →
      ∃ r, xPublish env s id force oracle now = (.error e, storeSet s1 r, k) ∧
        storeGet (storeSet s1 r) id = some r ∧
        r.ops.x_publish_status = some "failed" ∧
        r.ops.x_publish_failed_at = some now ∧
        r.ops.x_publish_error_code =
          some (if e.code = "" then "X_PUBLISH_FAILED" else e.code) ∧
        r.ops.x_publish_error_message = some e.message ∧
        r.ops.audit_log = claim.ops.audit_log) ∧
    (∀ (env : TgEnv) (s : Store) (id : String) (force : Bool) (oracle : Nat → TgApiResult)
        (now : Int) (p claim : LaunchPack) (s1 : Store) (ids : List String) (k : Nat),
      env.enabled = true → env.botToken ≠ none → env.chatId ≠ none →
      storeGet s id = some p →
      checklistGet p.ops.checklist "tg_ready" = true →
      ¬(p.ops.tg_published_at.isSome ∧ p.ops.tg_publish_status = some "published" ∧
        force = false) →
      memClaimPublish s .tg id now force now = (some claim, s1) →
      tgRunPins oracle claim.tg.pins = (.ok ids, k) →
      ∃ r, tgPublish env s id force oracle now = (.ok r, storeSet s1 r, k) ∧
        storeGet (storeSet s1 r) id = some r ∧
        r.ops.tg_publish_status = some "published" ∧
        r.ops.tg_message_ids = some ids ∧
        r.ops.audit_log =
          claim.ops.audit_log ++ [⟨now, "Telegram publish complete", "eliza"⟩]) ∧
    (∀ (env : TgEnv) (s : Store) (id : String) (force : Bool) (oracle : Nat → TgApiResult)
        (now : Int),
      env.enabled = false →
      tgPublish env s id force oracle now =
        (.error ⟨"TG_DISABLED", "Telegram publishing disabled", []⟩, s, 0)) ∧
    (∀ (env : TgEnv) (s : Store) (id : String) (force : Bool) (oracle : Nat → TgApiResult)
        (now : Int) (p : LaunchPack),
      env.enabled = true → env.botToken ≠ none → env.chatId ≠ none →
      storeGet s id = some p →
      checklistGet p.ops.checklist "tg_ready" = true →
      ¬(p.ops.tg_published_at.isSome ∧ p.ops.tg_publish_status = some "published" ∧
        force = false) →
      (memClaimPublish s .tg id now force now).1 = none →
      tgPublish env s id force oracle now =
        (.error ⟨"TG_PUBLISH_IN_PROGRESS", "Telegram publish already in progress", []⟩, s, 0)) := by
  refine ⟨?pumpFail, ?pumpOk, ?pumpPre, ?pumpLost, ?tgFail, ?xFail, ?tgOk, ?tgDis, ?tgLost⟩
  case pumpFail =>
    intro env s id force wStep uStep tStep now p claim s1 e slip hget hnl hallow hcaps hslip
      hclaim hsteps
    obtain ⟨hget1, hops⟩ := memClaimLaunch_some_get hget hclaim
    have hupd : memUpdate s1 id
        (fun ex => { ex with
          launch := failedLaunch claim.launch e now,
          ops := { claim.ops with
            audit_log := appendAudit claim.ops.audit_log now
              ("Launch failed: " ++ e.message) "eliza" } }) now =
        some ({ claim with
            launch := failedLaunch claim.launch e now,
            ops := { claim.ops with
              audit_log := appendAudit claim.ops.audit_log now
                ("Launch failed: " ++ e.message) "eliza" },
            id := id,
            updated_at := some now,
            version := some ((claim.version.getD 1) + 1) },
          storeSet s1 { claim with
            launch := failedLaunch claim.launch e now,
            ops := { claim.ops with
              audit_log := appendAudit claim.ops.audit_log now
                ("Launch failed: " ++ e.message) "eliza" },
            id := id,
            updated_at := some now,
            version := some ((claim.version.getD 1) + 1) }) := by
      simp only [memUpdate, hget1]
    refine ⟨{ claim with
        launch := failedLaunch claim.launch e now,
        ops := { claim.ops with
          audit_log := appendAudit claim.ops.audit_log now
            ("Launch failed: " ++ e.message) "eliza" },
        id := id,
        updated_at := some now,
        version := some ((claim.version.getD 1) + 1) }, ?_, ?_, ?_, ?_, ?_, ?_⟩
    · simp only [pumpLaunch, hget]
      rw [if_neg hnl]
      simp only [hallow, hcaps, hslip, hclaim, hsteps, hupd]
    · exact storeGet_storeSet_self s1 _
    · simp [failedLaunch]
    · simp [failedLaunch]
    · simp [failedLaunch]
    · simp [appendAudit]
  case pumpOk =>
    intro env s id force wStep uStep tStep now p claim s1 tr slip hget hnl hallow hcaps hslip
      hclaim hsteps
    obtain ⟨hget1, hops⟩ := memClaimLaunch_some_get hget hclaim
    have hupd : memUpdate s1 id
        (fun ex => { ex with
          launch := launchedLaunch claim.launch tr now,
          ops := { claim.ops with
            audit_log := appendAudit claim.ops.audit_log now
              "Pump launch complete" "eliza" } }) now =
        some ({ claim with
            launch := launchedLaunch claim.launch tr now,
            ops := { claim.ops with
              audit_log := appendAudit claim.ops.audit_log now
                "Pump launch complete" "eliza" },
            id := id,
            updated_at := some now,
            version := some ((claim.version.getD 1) + 1) },
          storeSet s1 { claim with
            launch := launchedLaunch claim.launch tr now,
            ops := { claim.ops with
              audit_log := appendAudit claim.ops.audit_log now
                "Pump launch complete" "eliza" },
            id := id,
            updated_at := some now,
            version := some ((claim.version.getD 1) + 1) }) := by
      simp only [memUpdate, hget1]
    refine ⟨{ claim with
        launch := launchedLaunch claim.launch tr now,
        ops := { claim.ops with
          audit_log := appendAudit claim.ops.audit_log now
            "Pump launch complete" "eliza" },
        id := id,
        updated_at := some now,
        version := some ((claim.version.getD 1) + 1) }, ?_, ?_, ?_, ?_⟩
    · simp only [pumpLaunch, hget]
      rw [if_neg hnl]
      simp only [hallow, hcaps, hslip, hclaim, hsteps, hupd]
    · exact storeGet_storeSet_self s1 _
    · simp [launchedLaunch]
    · simp [appendAudit]
  case pumpPre =>
    intro env s id force wStep uStep tStep now p e hget hnl hallow
    simp only [pumpLaunch, hget]
    rw [if_neg hnl]
    simp only [hallow]
  case pumpLost =>
    intro env s id force wStep uStep tStep now p slip hget hnl hallow hcaps hslip hclaim1
    rcases memClaimLaunch_spec now now "ready" hget with ⟨heq, _⟩ | ⟨_, heq⟩
    · simp only [pumpLaunch, hget]
      rw [if_neg hnl]
      simp only [hallow, hcaps, hslip, heq]
    · rw [heq] at hclaim1
      exact absurd hclaim1 (by simp)
  case tgFail =>
    intro env s id force oracle now p claim s1 e k hen htok hchat hget hready hnoshort
      hclaim hpins
    obtain ⟨hget1, hops, htgc, hxc⟩ := memClaimPublish_some_get hget hclaim
    have hupd : memUpdate s1 id
        (fun ex => { ex with ops := tgFailureOps claim.ops e now }) now =
        some ({ claim with
            ops := tgFailureOps claim.ops e now,
            id := id,
            updated_at := some now,
            version := some ((claim.version.getD 1) + 1) },
          storeSet s1 { claim with
            ops := tgFailureOps claim.ops e now,
            id := id,
            updated_at := some now,
            version := some ((claim.version.getD 1) + 1) }) := by
      simp only [memUpdate, hget1]
    refine ⟨{ claim with
        ops := tgFailureOps claim.ops e now,
        id := id,
        updated_at := some now,
        version := some ((claim.version.getD 1) + 1) }, ?_, ?_, ?_, ?_, ?_, ?_, ?_⟩
    · simp only [tgPublish, hen, hget]
      rw [if_neg (by simp), if_neg (by simp [htok, hchat]), if_neg (by simp [hready]),
        if_neg hnoshort]
      simp only [hclaim, hpins, hupd]
    · exact storeGet_storeSet_self s1 _
    · simp [tgFailureOps]
    · simp [tgFailureOps]
    · simp [tgFailureOps]
    · simp [tgFailureOps]
    · simp [tgFailureOps]
  case xFail =>
    intro env s id force oracle now p claim s1 e k hen h1 h2 h3 h4 hget hready hnoshort
      hclaim hposts
    obtain ⟨hget1, hops, htgc, hxc⟩ := memClaimPublish_some_get hget hclaim
    have hupd : memUpdate s1 id
        (fun ex => { ex with ops := xFailureOps claim.ops e now }) now =
        some ({ claim with
            ops := xFailureOps claim.ops e now,
            id := id,
            updated_at := some now,
            version := some ((claim.version.getD 1) + 1) },
          storeSet s1 { claim with
            ops := xFailureOps claim.ops e now,
            id := id,
            updated_at := some now,
            version := some ((claim.version.getD 1) + 1) }) := by
      simp only [memUpdate, hget1]
    refine ⟨{ claim with
        ops := xFailureOps claim.ops e now,
        id := id,
        updated_at := some now,
        version := some ((claim.version.getD 1) + 1) }, ?_, ?_, ?_, ?_, ?_, ?_, ?_⟩
    · simp only [xPublish, hen, hget]
      rw [if_neg (by simp), if_neg (by simp [h1, h2, h3, h4]), if_neg (by simp [hready]),
        if_neg hnoshort]
      simp only [hclaim, hposts, hupd]
    · exact storeGet_storeSet_self s1 _
    · simp [xFailureOps]
    · simp [xFailureOps]
    · simp [xFailureOps]
    · simp [xFailureOps]
    · simp [xFailureOps]
  case tgOk =>
    intro env s id force oracle now p claim s1 ids k hen htok hchat hget hready hnoshort
      hclaim hpins
    obtain ⟨hget1, hops, htgc, hxc⟩ := memClaimPublish_some_get hget hclaim
    have hupd : memUpdate s1 id
        (fun ex => { ex with ops := tgSuccessOps claim.ops ids claim.tg.schedule now }) now =
        some ({ claim with
            ops := tgSuccessOps claim.ops ids claim.tg.schedule now,
            id := id,
            updated_at := some now,
            version := some ((claim.version.getD 1) + 1) },
          storeSet s1 { claim with
            ops := tgSuccessOps claim.ops ids claim.tg.schedule now,
            id := id,
            updated_at := some now,
            version := some ((claim.version.getD 1) + 1) }) := by
      simp only [memUpdate, hget1]
    refine ⟨{ claim with
        ops := tgSuccessOps claim.ops ids claim.tg.schedule now,
        id := id,
        updated_at := some now,
        version := some ((claim.version.getD 1) + 1) }, ?_, ?_, ?_, ?_, ?_⟩
    · simp only [tgPublish, hen, hget]
      rw [if_neg (by simp), if_neg (by simp [htok, hchat]), if_neg (by simp [hready]),
        if_neg hnoshort]
      simp only [hclaim, hpins, hupd]
    · exact storeGet_storeSet_self s1 _
    · simp [tgSuccessOps]
    · simp [tgSuccessOps]
    · simp [tgSuccessOps, appendAudit]
  case tgDis =>
    intro env s id force oracle now henf
    simp [tgPublish, henf]
  case tgLost =>
    intro env s id force oracle now p hen htok hchat hget hready hnoshort hclaim1
    rcases @memClaimPublish_spec s .tg id p now now force hget with ⟨heq, _⟩ | ⟨_, heq⟩
    · simp only [tgPublish, hen, hget]
      rw [if_neg (by simp), if_neg (by simp [htok, hchat]), if_neg (by simp [hready]),
        if_neg hnoshort]
      simp only [heq]
    · rw [heq] at hclaim1
      exact absurd hclaim1 (by simp)


/-- C2 witness: a concrete launch whose wallet step fails ends with the error
re-raised and a stored terminal `failed` record carrying the code and one
appended audit entry. -/
theorem c2_orchestrator_failure_handling_witness :
    (pumpLaunch launchEnvFixture [launchDraftPack] "p" false (.error walletFailErr)
        (.ok "uri") (.ok ⟨none, "m"⟩) 7).1 = .error walletFailErr ∧
    ((storeGet (pumpLaunch launchEnvFixture [launchDraftPack] "p" false (.error walletFailErr)
        (.ok "uri") (.ok ⟨none, "m"⟩) 7).2 "p").map
      (fun r => (r.launch.status, r.launch.error_code, r.ops.audit_log.length))) =
      some ("failed", some "WALLET_FAIL", 1) := by
  obtain ⟨r, hrun, hget2, hst, hcode, hmsg, haud⟩ :=
    c2_orchestrator_failure_handling.1 launchEnvFixture [launchDraftPack] "p" false
      (.error walletFailErr) (.ok "uri") (.ok ⟨none, "m"⟩) 7 launchDraftPack _ _
      walletFailErr 10 rfl (by decide) rfl rfl rfl rfl rfl
  constructor
  · rw [hrun]
  · rw [hrun]
    simp only [hget2]
    simp [hst, hcode, haud, launchDraftPack, walletFailErr]


end AgentX
